import Mathlib

/-!
Verification development for the gota fork (in-memory typed tabular data engine).

The Go sources are shallowly embedded:
* `src/series/gota_element.go` → `ElementValue`, `BoolElementValue` below;
* `src/unnamed/part_005` (the generic `GotaSeries`) → `GotaSeries` and its methods;
* `src/unnamed/part_000` (`findType`) → `findType`;
* `src/dataframe/gota_dataframe.go` (`GotaDataFrame`) → `GotaDataFrame` and its methods;
* machine `int` is modelled as `Int` (no claim exercises overflow), `float64` as `Rat`
  (no claim exercises rounding), Go errors as `Option String` holding the message,
  Go `panic` as the `crash` constructor of `POr`.

The non-generic column type `series.Series1` that the dataframe code manipulates is
not part of the sources; its methods are modelled after the repository's own generic
`GotaSeries` implementation where one exists, and from the specification otherwise
(each such definition is marked in its doc comment).
-/

namespace Gota

/-- Outcome of a Go computation that can panic: either a value or a runtime panic
with its message. -/
inductive POr (β : Type) where
  | ok (val : β)
  | crash (msg : String)
deriving DecidableEq

/-- Generic element from src/series/gota_element.go: a value of the series type
together with the missing (`nan`) flag. -/
structure ElementValue (α : Type) where
  value : α
  nan : Bool
deriving DecidableEq

/-- Setter from gota_element.go lines 31-33: `ev.value = item` — the `nan` flag is
left untouched. -/
def ElementValue.Set (ev : ElementValue α) (item : α) : ElementValue α :=
  { value := item, nan := ev.nan }

/-- Eq from gota_element.go lines 35-37: `ev.nan == other.IsNA() && ev.value == other.Val()`. -/
def ElementValue.EqGo [DecidableEq α] (ev other : ElementValue α) : Bool :=
  (ev.nan == other.nan) && (ev.value == other.value)

/-- Neq from gota_element.go lines 38-40. -/
def ElementValue.NeqGo [DecidableEq α] (ev other : ElementValue α) : Bool :=
  (ev.nan != other.nan) || (ev.value != other.value)

/-- Less from gota_element.go lines 42-44: compares the raw values only. -/
def ElementValue.LessGo [LinearOrder α] (ev other : ElementValue α) : Bool :=
  decide (ev.value < other.value)

/-- LessEq from gota_element.go lines 45-47. -/
def ElementValue.LessEqGo [LinearOrder α] (ev other : ElementValue α) : Bool :=
  decide (ev.value ≤ other.value)

/-- Greater from gota_element.go lines 48-50. -/
def ElementValue.GreaterGo [LinearOrder α] (ev other : ElementValue α) : Bool :=
  decide (ev.value > other.value)

/-- GreaterEq from gota_element.go lines 51-53. -/
def ElementValue.GreaterEqGo [LinearOrder α] (ev other : ElementValue α) : Bool :=
  decide (ev.value ≥ other.value)

/-- Val accessor from gota_element.go lines 59-61. -/
def ElementValue.Val (ev : ElementValue α) : α := ev.value

/-- IsNA from gota_element.go lines 64-66. -/
def ElementValue.IsNA (ev : ElementValue α) : Bool := ev.nan

/-- NewElement from gota_element.go lines 68-70: wraps a value with `nan = false`. -/
def NewElement (t : α) : ElementValue α := ⟨t, false⟩

/-- Boolean element from gota_element.go lines 92-95. -/
structure BoolElementValue where
  value : Bool
  nan : Bool
deriving DecidableEq

/-- Setter from gota_element.go lines 98-101: unlike the generic `Set`, it also
clears the missing flag (`b.nan = false`). -/
def BoolElementValue.Set (_b : BoolElementValue) (other : Bool) : BoolElementValue :=
  { value := other, nan := false }

/-- Eq from gota_element.go lines 104-106: `b.value == be.Val()` — the missing
flags are not consulted. -/
def BoolElementValue.EqGo (b be : BoolElementValue) : Bool :=
  b.value == be.value

/-- Neq from gota_element.go lines 108-110. -/
def BoolElementValue.NeqGo (b be : BoolElementValue) : Bool :=
  b.value != be.value

/-- Less from gota_element.go lines 112-114: `!b.value && be.Val()`. -/
def BoolElementValue.LessGo (b be : BoolElementValue) : Bool :=
  !b.value && be.value

/-- IsNA from gota_element.go lines 138-140. -/
def BoolElementValue.IsNA (b : BoolElementValue) : Bool := b.nan

/-- NewBoolElement from gota_element.go lines 142-144. -/
def NewBoolElement (b : Bool) : BoolElementValue := ⟨b, false⟩

/-- Generic series from src/unnamed/part_005 lines 12-16.  The `Elements[T]`
wrapper (`ElementsArray` with its cached length, part_003) is flattened into a
plain list; its `Len` field always equals the length of its `elements` slice. -/
structure GotaSeries (α : Type) where
  Name : String
  elements : List (ElementValue α)
  Err : Option String
deriving DecidableEq

/-- NewElements from part_003: wraps every raw value with `NewElement`
(so `nan = false` everywhere). -/
def NewElements (values : List α) : List (ElementValue α) :=
  values.map NewElement

/-- NewSeries from part_005 lines 19-26. -/
def NewSeries (name : String) (values : List α) : GotaSeries α :=
  { Name := name, elements := NewElements values, Err := none }

/-- Len from part_005 lines 299-301. -/
def GotaSeries.Len (s : GotaSeries α) : Nat := s.elements.length

/-- Empty from part_005 lines 29-31: same-named zero-length series. -/
def GotaSeries.Empty (s : GotaSeries α) : GotaSeries α := NewSeries s.Name []

/-- Elem accessor from part_005 lines 335-337.  The Go version panics on an
out-of-range index; the model totalises with a default element (no claim
exercises an out-of-range access through this accessor). -/
def GotaSeries.ElemD [Inhabited α] (s : GotaSeries α) (i : Nat) : ElementValue α :=
  s.elements.getD i ⟨default, false⟩

/-- Val from part_005 lines 325-327. -/
def GotaSeries.Val [Inhabited α] (s : GotaSeries α) (i : Nat) : α := (s.ElemD i).value

/-- IsNaN from part_005 lines 130-136. -/
def GotaSeries.IsNaN (s : GotaSeries α) : List Bool := s.elements.map (·.nan)

/-- HasNaN from part_005 lines 120-127. -/
def GotaSeries.HasNaN (s : GotaSeries α) : Bool := s.elements.any (·.nan)

/-- Append from part_005 lines 39-45: in-place append, a no-op when the series
already carries an error. -/
def GotaSeries.Append (s : GotaSeries α) (values : List α) : GotaSeries α :=
  match s.Err with
  | some _ => s
  | none => { s with elements := s.elements ++ NewElements values }

/-- Row selector variants from part_004 (`Indexes interface{}`) as resolved by
`parseIndexes` (part_005 lines 341-386): `[]int`, `int` and `[]bool`.  Indices
are modelled as `Nat` (a negative index makes the Go code panic downstream and
no claim exercises one).  The `Series[int]`/`Series[bool]` cases of the source
refer to a field `s.t` that does not exist on `GotaSeries` (the file does not
compile as written) and no claim exercises them; every remaining variant falls
to the `default` branch, modelled by `unsupported`. -/
inductive Indexes where
  | ints (idx : List Nat)
  | pos (i : Nat)
  | bools (mask : List Bool)
  | unsupported
deriving DecidableEq

/-- parseIndexes from part_005 lines 341-386: resolves a selector against a
series of length `l`; the `[]bool` variant checks the mask length and keeps the
positions of `true` entries; `[]int` is passed through with no bounds check. -/
def parseIndexes (l : Nat) (indexes : Indexes) : Except String (List Nat) :=
  match indexes with
  | .ints idx => .ok idx
  | .pos i => .ok [i]
  | .bools bools =>
      if bools.length ≠ l then .error "indexing error: index dimensions mismatch"
      else .ok ((bools.enum.filter (·.2)).map (·.1))
  | .unsupported => .error "indexing error: unknown indexing mode"

/-- Subset from part_005 lines 64-86.  The new elements are rebuilt with
`NewElements` from the raw `Val()` of each selected element
(`new_t[i] = s.elements.Elem(index).Val()`), so every element of the result has
`nan = false` whatever the flag of its source element was. -/
def GotaSeries.Subset [Inhabited α] (s : GotaSeries α) (indexes : Indexes) : GotaSeries α :=
  match s.Err with
  | some _ => s
  | none =>
    match parseIndexes s.Len indexes with
    | .error e => { s with Err := some e }
    | .ok idx =>
        { Name := s.Name
          elements := NewElements (idx.map fun i => (s.ElemD i).Val)
          Err := none }

/-- Loop body of Set from part_005 lines 108-115 (`for k, i := range idx`):
updates position `i` with the `k`-th new value through the element's `Set`
method, stopping with the partial mutation retained when an index is out of
range. -/
def setLoop [Inhabited α] (elems : List (ElementValue α)) (idx : List Nat) (k : Nat)
    (newvalues : GotaSeries α) : List (ElementValue α) × Option String :=
  match idx with
  | [] => (elems, none)
  | i :: rest =>
      if i ≥ elems.length then (elems, some "set error: index out of range")
      else setLoop (elems.set i ((elems.getD i ⟨default, false⟩).Set (newvalues.Val k)))
             rest (k + 1) newvalues

/-- Set from part_005 lines 90-117: gate on both error states, resolve the
indexes, check dimensions, then mutate element-wise through `Element.Set`. -/
def GotaSeries.Set [Inhabited α] (s : GotaSeries α) (indexes : Indexes)
    (newvalues : GotaSeries α) : GotaSeries α :=
  match s.Err with
  | some _ => s
  | none =>
    match newvalues.Err with
    | some e => { s with Err := some ("set error: argument has errors: " ++ e) }
    | none =>
      match parseIndexes s.Len indexes with
      | .error e => { s with Err := some e }
      | .ok idx =>
          if idx.length ≠ newvalues.Len then { s with Err := some "set error: dimensions mismatch" }
          else
            let r := setLoop s.elements idx 0 newvalues
            { Name := s.Name, elements := r.1, Err := r.2 }

/-- Indexed non-missing elements of a series in index order — the `ie` list that
Order (part_005 lines 391-399) builds in its single pass over `i < s.Len()`. -/
def orderIE [Inhabited α] (s : GotaSeries α) : List (Nat × ElementValue α) :=
  ((List.range s.Len).filter (fun i => !(s.ElemD i).nan)).map (fun i => (i, s.ElemD i))

/-- Comparator for Order: `sort.Stable` with the strict `indexedElement.Less`
(which delegates to the element's value-only `Less`) sorts by the non-strict
complement `le a b = ¬Less(b,a)`, i.e. value a ≤ value b; `sort.Reverse` swaps
the strict comparator, giving `le a b = ¬Less(a,b)`, i.e. value b ≤ value a. -/
def orderLe [LinearOrder α] (reverse : Bool) (a b : Nat × ElementValue α) : Bool :=
  if reverse then decide (b.2.value ≤ a.2.value) else decide (a.2.value ≤ b.2.value)

/-- Order from part_005 lines 390-412: non-missing elements are paired with
their index, missing indices are collected separately (`nasIdx`), the indexed
pairs are sorted with `sort.Stable` — `sort.Reverse`-wrapped when `reverse` —
and the missing indices appended.  The stable sort is modelled by the stable
`List.insertionSort` with the total comparator `orderLe`. -/
def GotaSeries.Order [LinearOrder α] [Inhabited α] (s : GotaSeries α) (reverse : Bool) :
    List Nat :=
  ((List.insertionSort (fun a b => orderLe reverse a b = true) (orderIE s)).map (·.1)) ++
    (List.range s.Len).filter (fun i => (s.ElemD i).nan)

/-- Slice from part_005 lines 560-577: bounds check `j > k || j < 0 || k >= s.Len()`,
then delegates to Subset on the contiguous indices `j, j+1, …, k-1`. -/
def GotaSeries.Slice [Inhabited α] (s : GotaSeries α) (j k : Int) : GotaSeries α :=
  match s.Err with
  | some _ => s
  | none =>
    if j > k ∨ j < 0 ∨ k ≥ (s.Len : Int) then
      { s.Empty with Err := some "slice index out of bounds" }
    else
      s.Subset (.ints ((List.range (k - j).toNat).map (fun i => j.toNat + i)))

/-- Column types, the values of `series.Type` used by the repository
(Int, Float, Bool, String). -/
inductive SType where
  | int
  | float
  | bool
  | str
deriving DecidableEq, Inhabited

/-- ASCII decimal digit test. -/
def isDigitChar (c : Char) : Bool := decide ('0' ≤ c) && decide (c ≤ '9')

/-- Value of a list of ASCII digits read in base 10. -/
def digitsToNat (cs : List Char) : Nat :=
  cs.foldl (fun a c => a * 10 + (c.toNat - 48)) 0

/-- Nonempty all-digit check. -/
def allDigits (cs : List Char) : Bool := !cs.isEmpty && cs.all isDigitChar

/-- Model of `strconv.Atoi` (success only): an optional sign followed by one or
more ASCII base-10 digits whose value fits in int64 (Atoi is
`ParseInt(s, 10, 64)`; out-of-range input is an error and falls through to the
float test in `findType`). -/
def goAtoiOk (s : String) : Bool :=
  match s.data with
  | '+' :: rest => allDigits rest && decide (digitsToNat rest ≤ 2 ^ 63 - 1)
  | '-' :: rest => allDigits rest && decide (digitsToNat rest ≤ 2 ^ 63)
  | cs => allDigits cs && decide (digitsToNat cs ≤ 2 ^ 63 - 1)

/-- Exponent digits with optional sign. -/
def expDigits (cs : List Char) : Bool :=
  match cs with
  | '+' :: rest => allDigits rest
  | '-' :: rest => allDigits rest
  | rest => allDigits rest

/-- Optional exponent part `e`/`E` followed by signed digits; the empty rest is
accepted (no exponent). -/
def expPart (cs : List Char) : Bool :=
  match cs with
  | [] => true
  | 'e' :: rest => expDigits rest
  | 'E' :: rest => expDigits rest
  | _ => false

/-- Unsigned decimal mantissa with optional fraction dot and optional exponent;
at least one mantissa digit is required. -/
def mantissaExp (cs : List Char) : Bool :=
  let ip := cs.takeWhile isDigitChar
  let r1 := cs.dropWhile isDigitChar
  match r1 with
  | '.' :: r2 =>
      let fp := r2.takeWhile isDigitChar
      let r3 := r2.dropWhile isDigitChar
      (!ip.isEmpty || !fp.isEmpty) && expPart r3
  | r => !ip.isEmpty && expPart r

/-- Case-insensitive comparison against an ASCII keyword. -/
def lowerEq (cs : List Char) (t : String) : Bool := (cs.map Char.toLower) == t.data

/-- Model of `strconv.ParseFloat(s, 64)` (success only): optional sign, then
either a case-insensitive `inf`/`infinity`/`nan` keyword or a decimal
mantissa-exponent form.  Hexadecimal floats, underscore digit grouping and the
ErrRange overflow around 1e309 are not modelled; no claim exercises them. -/
def goParseFloatOk (s : String) : Bool :=
  let body :=
    match s.data with
    | '+' :: rest => rest
    | '-' :: rest => rest
    | rest => rest
  lowerEq body "inf" || lowerEq body "infinity" || lowerEq body "nan" || mantissaExp body

/-- Per-token classification implied by the guard chain of findType's loop
(part_000 lines 30-45): empty and `"NaN"` tokens are skipped (`none`), then
Atoi decides Integer, ParseFloat decides Float, the literals `"true"`/`"false"`
decide Boolean, and anything else is Text. -/
def tokClass (str : String) : Option SType :=
  if str = "" ∨ str = "NaN" then none
  else if goAtoiOk str then some SType.int
  else if goParseFloatOk str then some SType.float
  else if str = "true" ∨ str = "false" then some SType.bool
  else some SType.str

/-- findType from src/unnamed/part_000 lines 28-61: one pass sets the four
`has*` flags (the loop with `continue` sets a flag exactly when some token
reaches the corresponding branch), then the final type is chosen by the fixed
priority String > Bool > Float > Int; if no flag was set the result is
`(String, error "couldn't detect type")`. -/
def findType (arr : List String) : SType × Option String :=
  let hasInts := arr.any (fun s => tokClass s == some SType.int)
  let hasFloats := arr.any (fun s => tokClass s == some SType.float)
  let hasBools := arr.any (fun s => tokClass s == some SType.bool)
  let hasStrings := arr.any (fun s => tokClass s == some SType.str)
  if hasStrings then (SType.str, none)
  else if hasBools then (SType.bool, none)
  else if hasFloats then (SType.float, none)
  else if hasInts then (SType.int, none)
  else (SType.str, some "couldn't detect type")

/-- Comparator constants from part_004 lines 61-70 (`Eq`, `Neq`, `Greater`,
`GreaterEq`, `Less`, `LessEq`, `In`, `CompFunc`). -/
inductive Comparator where
  | Eq
  | Neq
  | Greater
  | GreaterEq
  | Less
  | LessEq
  | In
  | CompFunc
deriving DecidableEq

/-- Dynamic type of the `comparando interface\x7b\x7d` argument of the generic
`GotaSeries.Compare`: the cases its type switch distinguishes, with `other`
standing for every remaining dynamic type (the `default` branch). -/
inductive CompVal where
  | cint (v : Int)
  | cfloat (v : Rat)
  | cbool (v : Bool)
  | cstr (v : String)
  | cseries (s : GotaSeries Rat)
  | other
deriving DecidableEq

/-- compareElements from compareToNumber (part_005 lines 168-188): applies the
comparator to an element against `NewElement(b)`; the remaining comparators
(`In`, `CompFunc`) fall to the error branch. -/
def compareElements (a : ElementValue Rat) (b : Rat) : Comparator → Except String Bool
  | .Eq => .ok (a.EqGo (NewElement b))
  | .Neq => .ok (a.NeqGo (NewElement b))
  | .Greater => .ok (a.GreaterGo (NewElement b))
  | .GreaterEq => .ok (a.GreaterEqGo (NewElement b))
  | .Less => .ok (a.LessGo (NewElement b))
  | .LessEq => .ok (a.LessEqGo (NewElement b))
  | _ => .error "unknown comparator"

/-- compareToNumber from part_005 lines 166-200: compares every element to the
number, panicking when `compareElements` reports an unknown comparator.  Two
notes: the Go function body ends without a `return` statement (it does not
compile as written); the computed `bools` slice is the only sensible result and
the model returns it.  The generic code manipulates its elements as
`Element[float64]`, so the model is at `α = Rat`. -/
def GotaSeries.compareToNumber (s : GotaSeries Rat) (comparator : Comparator)
    (comparando : Rat) : POr (List Bool) :=
  let results := s.elements.map (fun e => compareElements e comparando comparator)
  if results.any (fun r => match r with | .error _ => true | .ok _ => false) then
    .crash "comparando is not a comparison function of type func(el Element) bool"
  else
    .ok (results.filterMap (fun r => match r with | .ok b => some b | .error _ => none))

/-- Result of the generic Compare: the errored receiver itself (the Go gate
returns `s` as the `BoolSeries` result), a list of per-element comparison
results, or the `nil` returned by the unimplemented
`compareToString`/`compareToSeries` stubs (part_005 lines 202-210). -/
inductive CmpRes where
  | errSelf (s : GotaSeries Rat)
  | boolsRes (bools : List Bool)
  | nilRes
deriving DecidableEq

/-- Compare from part_005 lines 141-164: gate on the error state, then dispatch
on the dynamic operand type.  An `int` operand matches the `case int, float64`
clause but the body's `comparando.(float64)` type assertion then panics; a
`bool` operand is turned into 1.0/0.0; the `default` branch panics with
"invalid type found for compare". -/
def GotaSeries.Compare (s : GotaSeries Rat) (comparator : Comparator)
    (comparando : CompVal) : POr CmpRes :=
  match s.Err with
  | some _ => .ok (.errSelf s)
  | none =>
    match comparando with
    | .cint _ => .crash "interface conversion: interface is int, not float64"
    | .cfloat v =>
        match s.compareToNumber comparator v with
        | .ok bools => .ok (.boolsRes bools)
        | .crash m => .crash m
    | .cbool b =>
        match s.compareToNumber comparator (if b then 1 else 0) with
        | .ok bools => .ok (.boolsRes bools)
        | .crash m => .crash m
    | .cstr _ => .ok .nilRes
    | .cseries _ => .ok .nilRes
    | .other => .crash "invalid type found for compare"

/-! The dataframe code (gota_dataframe.go) manipulates columns of the
non-generic type `series.Series1`, whose definition is not part of the sources.
It is modelled below as a column of dynamically typed elements; each method is
modelled after the repository's own generic `GotaSeries` implementation when
one exists in part_005, and from the specification otherwise. -/

/-- Dynamic element value: exactly one of the four domain types. -/
inductive EVal where
  | vi (v : Int)
  | vf (v : Rat)
  | vb (v : Bool)
  | vs (v : String)
deriving DecidableEq, Inhabited

/-- Dynamic element: a value plus the missing flag, mirroring
`ElementValue`/`BoolElementValue`. -/
structure Elem1 where
  val : EVal
  nan : Bool
deriving DecidableEq, Inhabited

/-- Dynamic type tag of an element value. -/
def EVal.styp : EVal → SType
  | .vi _ => .int
  | .vf _ => .float
  | .vb _ => .bool
  | .vs _ => .str

/-- Zero value of each column type (the Go zero value used when a missing
element of a given type is materialised). -/
def SType.zeroVal : SType → EVal
  | .int => .vi 0
  | .float => .vf 0
  | .bool => .vb false
  | .str => .vs ""

/-- Element equality as the join code uses it (`aElem.Eq(bElem)`).  Modelled
from the spec consistently with gota_element.go: same-type elements compare via
the element implementation — flags and values for the generic types, values
only for Boolean (`BoolElementValue.Eq`) — and elements of different dynamic
types are never equal. -/
def elemEq (a b : Elem1) : Bool :=
  match a.val, b.val with
  | .vb x, .vb y => x == y
  | .vi x, .vi y => (a.nan == b.nan) && (x == y)
  | .vf x, .vf y => (a.nan == b.nan) && (x == y)
  | .vs x, .vs y => (a.nan == b.nan) && (x == y)
  | _, _ => false

/-- Element Set dispatch: the generic element types keep the missing flag of
the overwritten element (gota_element.go lines 31-33), the Boolean element
clears it (lines 98-101). -/
def elemSet (e : Elem1) (v : EVal) : Elem1 :=
  match e.val with
  | .vb _ => ⟨v, false⟩
  | _ => ⟨v, e.nan⟩

/-- Non-generic column: name, declared type, elements, sticky error.
Modelled from the spec (`series.Series1` is not in the sources). -/
structure Series1 where
  Name : String
  typ : SType
  elems : List Elem1
  Err : Option String
deriving DecidableEq, Inhabited

/-- Length of a column. -/
def Series1.Len (s : Series1) : Nat := s.elems.length

/-- Copy: a deep copy of the column (elements, error state and all); in the
pure value model this is the identity. -/
def Series1.Copy (s : Series1) : Series1 := s

/-- Empty: same-named, same-typed zero-length error-free column (mirrors
`GotaSeries.Empty`, part_005 lines 29-31). -/
def Series1.Empty (s : Series1) : Series1 := { s with elems := [], Err := none }

/-- Element accessor, totalised with a default (the Go version panics out of
range; no claim exercises that). -/
def Series1.ElemD (s : Series1) (i : Nat) : Elem1 := s.elems.getD i default

/-- Raw value accessor. -/
def Series1.Val1 (s : Series1) (i : Nat) : EVal := (s.ElemD i).val

/-- HasNaN (mirrors part_005 lines 120-127). -/
def Series1.HasNaN (s : Series1) : Bool := s.elems.any (·.nan)

/-- Append of one element as the join fill loops use it
(`newCols[ii].Append(elem)`), with the error gate of `GotaSeries.Append`;
appending Go `nil` creates a missing element of the column's declared type
(spec: unmatched columns "are padded with missing values of the same type"). -/
def Series1.AppendE (s : Series1) (e : Option Elem1) : Series1 :=
  match s.Err with
  | some _ => s
  | none =>
    match e with
    | some el => { s with elems := s.elems ++ [el] }
    | none => { s with elems := s.elems ++ [⟨s.typ.zeroVal, true⟩] }

/-- Subset, modelled on the repository's own `GotaSeries.Subset` (part_005
lines 64-86), which rebuilds the selected elements from their raw values —
dropping every missing flag. -/
def Series1.Subset (s : Series1) (indexes : Indexes) : Series1 :=
  match s.Err with
  | some _ => s
  | none =>
    match parseIndexes s.Len indexes with
    | .error e => { s with Err := some e }
    | .ok idx =>
        { Name := s.Name, typ := s.typ
          elems := idx.map (fun i => ⟨(s.ElemD i).val, false⟩), Err := none }

/-- Loop body of Set (mirrors `setLoop` above at the dynamic element type). -/
def set1Loop (elems : List Elem1) (idx : List Nat) (k : Nat) (nv : Series1) :
    List Elem1 × Option String :=
  match idx with
  | [] => (elems, none)
  | i :: rest =>
      if i ≥ elems.length then (elems, some "set error: index out of range")
      else set1Loop (elems.set i (elemSet (elems.getD i default) (nv.Val1 k))) rest (k + 1) nv

/-- Set, modelled on `GotaSeries.Set` (part_005 lines 90-117). -/
def Series1.Set (s : Series1) (indexes : Indexes) (newvalues : Series1) : Series1 :=
  match s.Err with
  | some _ => s
  | none =>
    match newvalues.Err with
    | some e => { s with Err := some ("set error: argument has errors: " ++ e) }
    | none =>
      match parseIndexes s.Len indexes with
      | .error e => { s with Err := some e }
      | .ok idx =>
          if idx.length ≠ newvalues.Len then { s with Err := some "set error: dimensions mismatch" }
          else
            let r := set1Loop s.elems idx 0 newvalues
            { s with elems := r.1, Err := r.2 }

/-- Concat, modelled on `GotaSeries.Concat` (part_005 lines 49-61): a copy of
the receiver with the argument's elements appended (flags preserved —
`AppendElements` appends the elements themselves). -/
def Series1.Concat (s x : Series1) : Series1 :=
  match s.Err with
  | some _ => s
  | none =>
    match x.Err with
    | some e => { s with Err := some ("concat error: argument has errors: " ++ e) }
    | none => { s with elems := s.elems ++ x.elems }

/-- Numeric coercion of a dynamic value (booleans as 1/0, text has none). -/
def EVal.toRat : EVal → Option Rat
  | .vi v => some (v : Rat)
  | .vf v => some v
  | .vb v => some (if v then 1 else 0)
  | .vs _ => none

/-- Rational comparison by comparator; the remaining comparators (`In`,
`CompFunc`) are an error. -/
def cmpRat (c : Comparator) (x y : Rat) : Except String Bool :=
  match c with
  | .Eq => .ok (x == y)
  | .Neq => .ok (x != y)
  | .Greater => .ok (decide (x > y))
  | .GreaterEq => .ok (decide (x ≥ y))
  | .Less => .ok (decide (x < y))
  | .LessEq => .ok (decide (x ≤ y))
  | _ => .error "unknown comparator"

/-- String comparison by comparator. -/
def cmpStr (c : Comparator) (x y : String) : Except String Bool :=
  match c with
  | .Eq => .ok (x == y)
  | .Neq => .ok (x != y)
  | .Greater => .ok (decide (x > y))
  | .GreaterEq => .ok (decide (x ≥ y))
  | .Less => .ok (decide (x < y))
  | .LessEq => .ok (decide (x ≤ y))
  | _ => .error "unknown comparator"

/-- Operand of a dataframe filter (`F.Comparando`): a scalar number, boolean or
text literal. -/
inductive FCompVal where
  | num (v : Rat)
  | b (v : Bool)
  | str (v : String)
deriving DecidableEq

/-- Compare, modelled from the spec (`Compare(op, operand)` returns a "Boolean
column of per-element comparison results"; invalid coercion is a type error):
numeric and boolean operands compare on the numeric coercion of each element
(booleans as 1/0, as the generic Compare does), text operands on text elements;
a text element against a number — or any element against an operand its column
cannot coerce to — is a type error. -/
def Series1.Compare (s : Series1) (c : Comparator) (cv : FCompVal) : Series1 :=
  match s.Err with
  | some _ => s
  | none =>
    let resE : Except String (List Bool) :=
      s.elems.mapM (fun e =>
        match cv with
        | .num v =>
            match e.val.toRat with
            | some r => cmpRat c r v
            | none => .error "type error: cannot coerce to number"
        | .b bv =>
            match e.val.toRat with
            | some r => cmpRat c r (if bv then 1 else 0)
            | none => .error "type error: cannot coerce to number"
        | .str sv =>
            match e.val with
            | .vs x => cmpStr c x sv
            | _ => .error "type error: cannot coerce to string")
    match resE with
    | .error e => { Name := s.Name, typ := SType.bool, elems := [], Err := some e }
    | .ok bs =>
        { Name := s.Name, typ := SType.bool
          elems := bs.map (fun bv => ⟨EVal.vb bv, false⟩), Err := none }

/-- Bool() export, modelled from the spec: the raw booleans of a Boolean
column, a type error otherwise. -/
def Series1.BoolGo (s : Series1) : Except String (List Bool) :=
  if s.typ = SType.bool then
    s.elems.mapM (fun e => match e.val with
      | .vb bv => Except.ok bv
      | _ => Except.error "type error: not a bool element")
  else .error "type error: not a bool column"

/-- Value order on dynamic values, used by the Series1 Order model: numerically
coercible values by numeric value, strings lexicographically, and any remaining
mixed pair by a fixed kind rank.  Within a homogeneous column this agrees with
the generic element `Less` (values only).  Modelled from the spec. -/
def elemValLe (a b : EVal) : Bool :=
  match a.toRat, b.toRat with
  | some x, some y => decide (x ≤ y)
  | _, _ =>
    match a, b with
    | .vs x, .vs y => decide (x ≤ y)
    | .vs _, _ => false
    | _, .vs _ => true
    | _, _ => true

/-- Indexed non-missing elements of a Series1 in index order (mirrors
`orderIE`). -/
def order1IE (s : Series1) : List (Nat × Elem1) :=
  ((List.range s.Len).filter (fun i => !(s.ElemD i).nan)).map (fun i => (i, s.ElemD i))

/-- Order comparator for Series1 (mirrors `orderLe`). -/
def order1Le (reverse : Bool) (a b : Nat × Elem1) : Bool :=
  if reverse then elemValLe b.2.val a.2.val else elemValLe a.2.val b.2.val

/-- Order, modelled on `GotaSeries.Order` (part_005 lines 390-412). -/
def Series1.Order (s : Series1) (reverse : Bool) : List Nat :=
  ((List.insertionSort (fun a b => order1Le reverse a b = true) (order1IE s)).map (·.1)) ++
    (List.range s.Len).filter (fun i => (s.ElemD i).nan)

/-- DataFrame from gota_dataframe.go lines 12-19. -/
structure GotaDataFrame where
  columns : List Series1
  ncols : Nat
  nrows : Nat
  Err : Option String
deriving DecidableEq, Inhabited

/-- The zero-valued errored frame `GotaDataFrame\x7bErr: err\x7d` the source
returns on failure (columns nil, ncols and nrows zero). -/
def errDF (e : String) : GotaDataFrame :=
  { columns := [], ncols := 0, nrows := 0, Err := some e }

/-- Names from gota_dataframe.go lines 761-767. -/
def GotaDataFrame.Names (df : GotaDataFrame) : List String := df.columns.map (·.Name)

/-- Types from gota_dataframe.go lines 770-776. -/
def GotaDataFrame.Types (df : GotaDataFrame) : List SType := df.columns.map (·.typ)

/-- NRow from gota_dataframe.go lines 799-801. -/
def GotaDataFrame.NRow (df : GotaDataFrame) : Nat := df.nrows

/-- NCol from gota_dataframe.go lines 804-806. -/
def GotaDataFrame.NCol (df : GotaDataFrame) : Nat := df.ncols

/-- ColIndex from gota_dataframe.go lines 1266-1273: first index of the column
name, `-1` when absent (`findInStringSlice`, part_000 lines 10-16). -/
def GotaDataFrame.ColIndex (df : GotaDataFrame) (s : String) : Int :=
  match df.Names.findIdx? (fun c => c == s) with
  | some i => (i : Int)
  | none => -1

/-- Loop of checkColumnsDimensions (gota_dataframe.go lines 58-70): first
errored column wins, then the first row-count mismatch (error messages carry
the offending index in Go; the model keeps fixed messages). -/
def checkDimsLoop (nrows : Option Nat) : List Series1 → Except String Nat
  | [] => .ok (nrows.getD 0)
  | s :: rest =>
      if s.Err.isSome then .error "error on series"
      else
        match nrows with
        | none => checkDimsLoop (some s.Len) rest
        | some n =>
            if n ≠ s.Len then .error "arguments have different dimensions"
            else checkDimsLoop (some n) rest

/-- checkColumnsDimensions from gota_dataframe.go lines 51-72. -/
def checkColumnsDimensions (se : List Series1) : Except String (Nat × Nat) :=
  if se.isEmpty then .error "no Series given"
  else
    match checkDimsLoop none se with
    | .error e => .error e
    | .ok nrows => .ok (nrows, se.length)

/-- Modelled from the spec: `fixColnames` is not in the sources; duplicate
column names "are deterministically disambiguated by suffixing with an
occurrence counter".  Unique names are kept unchanged; each occurrence of a
duplicated name gets an underscore and the count of its earlier occurrences
appended. -/
def fixColnames (names : List String) : List String :=
  names.enum.map (fun p =>
    if names.count p.2 ≤ 1 then p.2
    else p.2 ++ "_" ++ toString ((names.take p.1).count p.2))

/-- The final renaming loop of New/Select/Drop/Mutate/RApply
(`df.columns[i].Name = colname`). -/
def setNames (cols : List Series1) (names : List String) : List Series1 :=
  (cols.zip names).map (fun p => { p.1 with Name := p.2 })

/-- New from gota_dataframe.go lines 23-49: empty input errors, columns are
copied, dimensions are checked, duplicate names are fixed. -/
def New (se : List Series1) : GotaDataFrame :=
  if se.isEmpty then errDF "empty DataFrame"
  else
    let columns := se.map Series1.Copy
    match checkColumnsDimensions columns with
    | .error e => errDF e
    | .ok p =>
        let df : GotaDataFrame := { columns := columns, ncols := p.2, nrows := p.1, Err := none }
        { df with columns := setNames df.columns (fixColnames df.Names) }

/-- Copy from gota_dataframe.go lines 74-81: rebuild through `New`, then carry
the error state over. -/
def GotaDataFrame.Copy (df : GotaDataFrame) : GotaDataFrame :=
  let c := New df.columns
  match df.Err with
  | some e => { c with Err := some e }
  | none => c

/-- Set from gota_dataframe.go lines 242-262: gates, column-count check, then
`Column.Set` per aligned pair, failing on any sub-error. -/
def GotaDataFrame.Set (df : GotaDataFrame) (indexes : Indexes) (newvalues : GotaDataFrame) :
    GotaDataFrame :=
  match df.Err with
  | some _ => df
  | none =>
    match newvalues.Err with
    | some e => errDF ("argument has errors: " ++ e)
    | none =>
      if df.ncols ≠ newvalues.NCol then errDF "different number of columns"
      else
        let columns := (df.columns.zip newvalues.columns).map (fun p => p.1.Set indexes p.2)
        if columns.any (fun c => c.Err.isSome) then errDF "setting error on column"
        else { df with columns := columns }

/-- Subset from gota_dataframe.go lines 266-284: every column is subset
identically, then dimensions re-checked. -/
def GotaDataFrame.Subset (df : GotaDataFrame) (indexes : Indexes) : GotaDataFrame :=
  match df.Err with
  | some _ => df
  | none =>
    let columns := df.columns.map (fun c => c.Subset indexes)
    match checkColumnsDimensions columns with
    | .error e => errDF e
    | .ok p => { columns := columns, ncols := p.2, nrows := p.1, Err := none }

/-- Column selector variants from dataframe.go (`SelectIndexes interface\x7b\x7d`)
as resolved by parseSelectIndexes (part_001): `[]int`, `int`, `[]bool`,
`string` and `[]string`.  The typed-index-column variant resolves recursively
to these cases and is exercised by no claim; it is omitted.  Remaining dynamic
types fall to the `default` branch (`unsupported`). -/
inductive SelectIndexes where
  | ints (l : List Nat)
  | pos (i : Nat)
  | bools (l : List Bool)
  | name (s : String)
  | names (l : List String)
  | unsupported
deriving DecidableEq

/-- parseSelectIndexes from part_001 lines 9-70. -/
def parseSelectIndexes (l : Nat) (indexes : SelectIndexes) (colnames : List String) :
    Except String (List Nat) :=
  match indexes with
  | .ints idx => .ok idx
  | .pos i => .ok [i]
  | .bools bools =>
      if bools.length ≠ l then .error "indexing error: index dimensions mismatch"
      else .ok ((bools.enum.filter (·.2)).map (·.1))
  | .name s =>
      match colnames.findIdx? (fun c => c == s) with
      | some i => .ok [i]
      | none => .error "can't select columns: column name not found"
  | .names xs =>
      xs.mapM (fun s =>
        match colnames.findIdx? (fun c => c == s) with
        | some i => Except.ok i
        | none => Except.error "can't select columns: column name not found")
  | .unsupported => .error "indexing error: unknown indexing mode"

/-- Select from gota_dataframe.go lines 287-317. -/
def GotaDataFrame.Select (df : GotaDataFrame) (indexes : SelectIndexes) : GotaDataFrame :=
  match df.Err with
  | some _ => df
  | none =>
    match parseSelectIndexes df.ncols indexes df.Names with
    | .error e => errDF ("can't select columns: " ++ e)
    | .ok idx =>
        if idx.any (fun i => i ≥ df.ncols) then errDF "can't select columns: index out of range"
        else
          let columns := idx.map (fun i => (df.columns.getD i default).Copy)
          match checkColumnsDimensions columns with
          | .error e => errDF e
          | .ok p =>
              let df2 : GotaDataFrame :=
                { columns := columns, ncols := p.2, nrows := p.1, Err := none }
              { df2 with columns := setNames df2.columns (fixColnames df2.Names) }

/-- Drop from gota_dataframe.go lines 320-349: the complement of Select,
preserving original column order. -/
def GotaDataFrame.Drop (df : GotaDataFrame) (indexes : SelectIndexes) : GotaDataFrame :=
  match df.Err with
  | some _ => df
  | none =>
    match parseSelectIndexes df.ncols indexes df.Names with
    | .error e => errDF ("can't select columns: " ++ e)
    | .ok idx =>
        let columns := (df.columns.enum.filter (fun p => ¬ idx.contains p.1)).map
          (fun p => p.2.Copy)
        match checkColumnsDimensions columns with
        | .error e => errDF e
        | .ok p =>
            let df2 : GotaDataFrame :=
              { columns := columns, ncols := p.2, nrows := p.1, Err := none }
            { df2 with columns := setNames df2.columns (fixColnames df2.Names) }

/-- Rename from gota_dataframe.go lines 404-418. -/
def GotaDataFrame.Rename (df : GotaDataFrame) (newname oldname : String) : GotaDataFrame :=
  match df.Err with
  | some _ => df
  | none =>
    match df.Names.findIdx? (fun c => c == oldname) with
    | none => errDF "rename: can't find column name"
    | some idx =>
        let copy := df.Copy
        { copy with columns := copy.columns.enum.map (fun p =>
            if p.1 = idx then { p.2 with Name := newname } else p.2) }

/-- CBind from gota_dataframe.go lines 421-430. -/
def GotaDataFrame.CBind (df dfb : GotaDataFrame) : GotaDataFrame :=
  match df.Err with
  | some _ => df
  | none =>
    match dfb.Err with
    | some _ => dfb
    | none => New (df.columns ++ dfb.columns)

/-- RBind from gota_dataframe.go lines 434-457: per left column, find the
same-named right column and concatenate. -/
def GotaDataFrame.RBind (df dfb : GotaDataFrame) : GotaDataFrame :=
  match df.Err with
  | some _ => df
  | none =>
    match dfb.Err with
    | some _ => dfb
    | none =>
      match df.columns.mapM (fun col =>
          match dfb.Names.findIdx? (fun c => c == col.Name) with
          | none => Except.error "rbind: column names are not compatible"
          | some idx =>
              let ns := col.Concat (dfb.columns.getD idx default)
              match ns.Err with
              | some e => Except.error ("rbind: " ++ e)
              | none => Except.ok ns) with
      | .error e => errDF e
      | .ok expandedSeries => New expandedSeries

/-- First-seen-order unique names (the `uniques` map loop of Concat,
gota_dataframe.go lines 469-478). -/
def uniqueFirst (l : List String) : List String :=
  l.foldl (fun acc u => if acc.contains u then acc else acc ++ [u]) []

/-- Concat from gota_dataframe.go lines 461-505: RBind-like but tolerant of
disjoint column sets; a column present on one side only is padded with missing
values of its type for the other side's rows (`series.New(make([]struct\x7b\x7d,
nrows), typ, name)` builds a column of missing elements). -/
def GotaDataFrame.Concat (df dfb : GotaDataFrame) : GotaDataFrame :=
  match df.Err with
  | some _ => df
  | none =>
    match dfb.Err with
    | some _ => dfb
    | none =>
      let cols := uniqueFirst (df.Names ++ dfb.Names)
      let expandedSeries := cols.map (fun v =>
        let aidx := df.Names.findIdx? (fun c => c == v)
        let bidx := dfb.Names.findIdx? (fun c => c == v)
        let a : Series1 :=
          match aidx with
          | some i => df.columns.getD i default
          | none =>
              let bb := dfb.columns.getD (bidx.getD 0) default
              { Name := bb.Name, typ := bb.typ
                elems := List.replicate df.nrows ⟨bb.typ.zeroVal, true⟩, Err := none }
        let b : Series1 :=
          match bidx with
          | some i => dfb.columns.getD i default
          | none =>
              { Name := a.Name, typ := a.typ
                elems := List.replicate dfb.nrows ⟨a.typ.zeroVal, true⟩, Err := none }
        a.Concat b)
      match expandedSeries.mapM (fun ns =>
          match ns.Err with
          | some e => Except.error ("concat: " ++ e)
          | none => Except.ok ns) with
      | .error e => errDF e
      | .ok l => New l

/-- Mutate from gota_dataframe.go lines 509-539: gate, dimension check, copy
the frame, then replace the same-named column — or append — with the argument
series itself (`columns[idx] = s` / `append(columns, s)`; the ingested column
is not copied). -/
def GotaDataFrame.Mutate (df : GotaDataFrame) (s : Series1) : GotaDataFrame :=
  match df.Err with
  | some _ => df
  | none =>
    if s.Len ≠ df.nrows then errDF "mutate: wrong dimensions"
    else
      let dfc := df.Copy
      let columns :=
        match df.Names.findIdx? (fun c => c == s.Name) with
        | some idx => dfc.columns.set idx s
        | none => dfc.columns ++ [s]
      match checkColumnsDimensions columns with
      | .error e => errDF e
      | .ok p =>
          let df2 : GotaDataFrame :=
            { columns := columns, ncols := p.2, nrows := p.1, Err := none }
          { df2 with columns := setNames df2.columns (fixColnames df2.Names) }

/-- Filter aggregation constants from dataframe.go (`Or = 0`, `And = 1` —
Go `iota` integers; any other value reaches `panic(agg)` in the combine
loop). -/
def AggOr : Int := 0

/-- The And aggregation constant. -/
def AggAnd : Int := 1

/-- Filter specification from dataframe.go (struct `F`): column by index or by
name, comparator and literal operand. -/
structure F where
  colidx : Nat
  colname : String
  comparator : Comparator
  comparando : FCompVal
deriving DecidableEq

/-- FilterAggregation from gota_dataframe.go lines 552-600: resolve each
filter's column (an out-of-range `Colidx` panics in Go on the slice access; the
model totalises the access — no claim relies on that panic), run `Compare`,
extract the Boolean results, and combine them position-wise; an aggregation
other than `Or`/`And` hits `panic(agg)` on the first combine step, which runs
whenever there are at least two filters and at least one row.  Zero filters
return an unfiltered copy; the combined mask goes to `Subset`. -/
def GotaDataFrame.FilterAggregation (df : GotaDataFrame) (agg : Int) (filters : List F) :
    POr GotaDataFrame :=
  match df.Err with
  | some _ => .ok df
  | none =>
    match filters.mapM (fun f =>
        match (if f.colname = "" then Except.ok f.colidx
               else match df.Names.findIdx? (fun c => c == f.colname) with
                    | some i => Except.ok i
                    | none => Except.error "filter: can't find column name") with
        | .error e => Except.error e
        | .ok idx =>
            let res := (df.columns.getD idx default).Compare f.comparator f.comparando
            match res.Err with
            | some e => Except.error ("filter: " ++ e)
            | none => Except.ok res) with
    | .error e => .ok (errDF e)
    | .ok compResults =>
        if compResults.isEmpty then .ok df.Copy
        else
          match compResults.mapM Series1.BoolGo with
          | .error e => .ok (errDF ("filter: " ++ e))
          | .ok boolLists =>
              match boolLists with
              | [] => .ok df.Copy
              | first :: restLists =>
                  if restLists ≠ [] ∧ first ≠ [] ∧ agg ≠ AggOr ∧ agg ≠ AggAnd then
                    .crash "unknown aggregation"
                  else
                    let res := restLists.foldl (fun acc next =>
                      (acc.zip next).map (fun p =>
                        if agg = AggOr then p.1 || p.2 else p.1 && p.2)) first
                    .ok (df.Subset (.bools res))

/-- Filter from gota_dataframe.go lines 545-547: `FilterAggregation(Or, …)`. -/
def GotaDataFrame.Filter (df : GotaDataFrame) (filters : List F) : POr GotaDataFrame :=
  df.FilterAggregation AggOr filters

/-- Ordering key from order.go. -/
structure Order1 where
  colname : String
  reverse : Bool
deriving DecidableEq

/-- Arrange from gota_dataframe.go lines 603-643: validate the key columns,
then process keys from least to most significant, composing each restricted
column's stable Order into the running permutation (`swapOrigIdx`); finally
subset by the composed permutation.  The fold state is
(origIdx, suborder). -/
def GotaDataFrame.Arrange (df : GotaDataFrame) (order : List Order1) : GotaDataFrame :=
  match df.Err with
  | some _ => df
  | none =>
    if order.isEmpty then errDF "rename: no arguments"
    else if order.any (fun o => df.ColIndex o.colname = -1) then
      errDF "colname doesn't exist"
    else
      let step := fun (st : List Nat × List Nat) (o : Order1) =>
        let idx := (df.ColIndex o.colname).toNat
        let nextSeries := (df.columns.getD idx default).Subset (.ints st.2)
        let suborder := nextSeries.Order o.reverse
        (suborder.map (fun i => st.1.getD i 0), suborder)
      let final := (order.reverse).foldl step (List.range df.nrows, List.range df.nrows)
      df.Subset (.ints final.1)

/-- CApply from gota_dataframe.go lines 646-657: apply the function to every
column, restore the column names, recompose through New. -/
def GotaDataFrame.CApply (df : GotaDataFrame) (f : Series1 → Series1) : GotaDataFrame :=
  match df.Err with
  | some _ => df
  | none =>
    let columns := df.columns.map (fun s => { f s with Name := s.Name })
    New columns

/-- detectType from RApply (gota_dataframe.go lines 668-694): priority
String > Bool > Float > Int over a list of type tags; the `default` branch
panics with "type not supported" (reachable only for an empty list, as the
model's `SType` is closed). -/
def detectType (types : List SType) : POr SType :=
  if types.any (fun t => decide (t = SType.str)) then .ok SType.str
  else if types.any (fun t => decide (t = SType.bool)) then .ok SType.bool
  else if types.any (fun t => decide (t = SType.float)) then .ok SType.float
  else if types.any (fun t => decide (t = SType.int)) then .ok SType.int
  else .crash "type not supported"

/-- Monadic bind for panic propagation. -/
def POr.bindP (x : POr β) (f : β → POr γ) : POr γ :=
  match x with
  | .ok v => f v
  | .crash m => .crash m

/-- Panic-propagating map over a list. -/
def mapListP (f : β → POr γ) : List β → POr (List γ)
  | [] => .ok []
  | x :: xs => (f x).bindP (fun y => (mapListP f xs).bindP (fun ys => .ok (y :: ys)))

/-- RApply from gota_dataframe.go lines 663-755: detect the row type by
priority over the column types, build each row as an ephemeral series of the
row type, apply `f`, require equal output lengths, then re-type every output
column by the same priority over the emitted element types and recompose.
When the frame has zero rows the Go code reaches
`make([]series.Series1, rowlen)` with `rowlen = -1` and panics. -/
def GotaDataFrame.RApply (df : GotaDataFrame) (f : Series1 → Series1) : POr GotaDataFrame :=
  match df.Err with
  | some _ => .ok df
  | none =>
    (detectType df.Types).bindP (fun rowType =>
      let rows := (List.range df.nrows).map (fun i =>
        f { Name := "", typ := rowType, elems := df.columns.map (fun col => col.ElemD i)
            Err := none })
      match rows.mapM (fun row =>
          match row.Err with
          | some e => Except.error ("error applying function on row: " ++ e)
          | none => Except.ok row) with
      | .error e => .ok (errDF e)
      | .ok rows2 =>
          match rows2 with
          | [] => .crash "makeslice: len out of range"
          | r0 :: _ =>
              let rowlen := r0.Len
              if rows2.any (fun r => r.Len ≠ rowlen) then
                .ok (errDF "error applying function: rows have different lengths")
              else
                (mapListP (fun j =>
                    (detectType (rows2.map (fun r => (r.ElemD j).val.styp))).bindP
                      (fun colType => .ok
                        { Name := "", typ := colType
                          elems := rows2.map (fun r => r.ElemD j), Err := none }))
                  (List.range rowlen)).bindP (fun columns =>
                  match checkColumnsDimensions columns with
                  | .error e => .ok (errDF e)
                  | .ok p =>
                      let df2 : GotaDataFrame :=
                        { columns := columns, ncols := p.2, nrows := p.1, Err := none }
                      .ok { df2 with
                        columns := setNames df2.columns (fixColnames df2.Names) }))

/-- Key resolution common to the keyed joins (e.g. gota_dataframe.go lines
826-844): ColIndex of every key on both sides; any `-1` aborts with the
missing-key error (the Go message lists every missing key; the model keeps one
message). -/
def resolveKeys (df b : GotaDataFrame) (keys : List String) :
    Except String (List Nat × List Nat) :=
  let iA := keys.map df.ColIndex
  let iB := keys.map b.ColIndex
  if iA.any (fun i => i < 0) ∨ iB.any (fun i => i < 0) then
    .error "can't find key on DataFrame"
  else .ok (iA.map Int.toNat, iB.map Int.toNat)

/-- Non-key column indices in original order (the `iNotKeysA`/`iNotKeysB`
loops). -/
def notKeyIdxs (n : Nat) (keyIdxs : List Nat) : List Nat :=
  (List.range n).filter (fun i => ¬ keyIdxs.contains i)

/-- Element of column `c` at row `i`. -/
def colElem (cols : List Series1) (c i : Nat) : Elem1 := (cols.getD c default).ElemD i

/-- All join keys match between left row `i` and right row `j`
(the `for k := range keys` comparison loop, element-wise `Eq`). -/
def rowMatch (aCols bCols : List Series1) (iKA iKB : List Nat) (i j : Nat) : Bool :=
  (iKA.zip iKB).all (fun p => elemEq (colElem aCols p.1 i) (colElem bCols p.2 j))

/-- The `newCols` skeleton of a keyed join: `Empty()` of the key columns (from
the left), then the left non-key columns, then the right non-key columns. -/
def joinHeader (df b : GotaDataFrame) (iKA iNKA iNKB : List Nat) : List Series1 :=
  iKA.map (fun i => (df.columns.getD i default).Empty) ++
    iNKA.map (fun i => (df.columns.getD i default).Empty) ++
    iNKB.map (fun i => (b.columns.getD i default).Empty)

/-- Recompose rows into the skeleton columns: the Go fill loops run
`newCols[ii].Append(elem)` once per column per emitted row (`none` models
`Append(nil)`, the missing-value pad); the model appends, per column, the
elements that column receives across all emitted rows, in emission order. -/
def fillCols (header : List Series1) (rows : List (List (Option Elem1))) : List Series1 :=
  header.enum.map (fun p => rows.foldl (fun col row => col.AppendE (row.getD p.1 none)) p.2)

/-- The elements a matched pair (i, j) contributes, in output column order:
left keys, left non-keys, right non-keys. -/
def matchRow (df b : GotaDataFrame) (iKA iNKA iNKB : List Nat) (i j : Nat) :
    List (Option Elem1) :=
  (iKA ++ iNKA).map (fun k => some (colElem df.columns k i)) ++
    iNKB.map (fun k => some (colElem b.columns k j))

/-- The elements an unmatched left row contributes: left keys and non-keys,
right non-keys padded missing. -/
def leftPadRow (df : GotaDataFrame) (iKA iNKA iNKB : List Nat) (i : Nat) :
    List (Option Elem1) :=
  (iKA ++ iNKA).map (fun k => some (colElem df.columns k i)) ++
    iNKB.map (fun _ => (none : Option Elem1))

/-- The elements an unmatched right row contributes: keys sourced from the
right side, left non-keys padded missing, right non-keys. -/
def rightPadRow (b : GotaDataFrame) (iKB iNKA iNKB : List Nat) (j : Nat) :
    List (Option Elem1) :=
  iKB.map (fun k => some (colElem b.columns k j)) ++
    iNKA.map (fun _ => (none : Option Elem1)) ++
    iNKB.map (fun k => some (colElem b.columns k j))

/-- The right rows matching left row `i`, in scan order. -/
def matchesFor (df b : GotaDataFrame) (iKA iKB : List Nat) (i : Nat) : List Nat :=
  (List.range b.nrows).filter (fun j => rowMatch df.columns b.columns iKA iKB i j)

/-- InnerJoin from gota_dataframe.go lines 822-898: one output row per matching
(i, j) pair, i outer, j inner.  Note that no error gate guards an
already-errored receiver or argument. -/
def GotaDataFrame.InnerJoin (df b : GotaDataFrame) (keys : List String) : GotaDataFrame :=
  if keys.isEmpty then errDF "join keys not specified"
  else
    match resolveKeys df b keys with
    | .error e => errDF e
    | .ok p =>
        let iKA := p.1
        let iKB := p.2
        let iNKA := notKeyIdxs df.ncols iKA
        let iNKB := notKeyIdxs b.ncols iKB
        let rows := (List.range df.nrows).flatMap (fun i =>
          (matchesFor df b iKA iKB i).map (fun j => matchRow df b iKA iNKA iNKB i j))
        New (fillCols (joinHeader df b iKA iNKA iNKB) rows)

/-- The rows left row `i` contributes to a left or outer join: one `matchRow`
per match in scan order, or a single `leftPadRow` when there is none. -/
def leftJoinChunk (df b : GotaDataFrame) (iKA iKB iNKA iNKB : List Nat) (i : Nat) :
    List (List (Option Elem1)) :=
  if (matchesFor df b iKA iKB i).isEmpty then [leftPadRow df iKA iNKA iNKB i]
  else (matchesFor df b iKA iKB i).map (fun j => matchRow df b iKA iNKA iNKB i j)

/-- LeftJoin from gota_dataframe.go lines 901-996: per left row, one output row
per match; a left row with no match emits one row with the right non-key
columns padded missing.  No error gate. -/
def GotaDataFrame.LeftJoin (df b : GotaDataFrame) (keys : List String) : GotaDataFrame :=
  if keys.isEmpty then errDF "join keys not specified"
  else
    match resolveKeys df b keys with
    | .error e => errDF e
    | .ok p =>
        let iKA := p.1
        let iKB := p.2
        let iNKA := notKeyIdxs df.ncols iKA
        let iNKB := notKeyIdxs b.ncols iKB
        let rows := (List.range df.nrows).flatMap (leftJoinChunk df b iKA iKB iNKA iNKB)
        New (fillCols (joinHeader df b iKA iNKA iNKB) rows)

/-- RightJoin from gota_dataframe.go lines 999-1104: matched (i, j) pairs are
collected scanning j outer / i inner and emitted first; unmatched right rows
follow, keys sourced from the right, left non-keys padded missing.  No error
gate. -/
def GotaDataFrame.RightJoin (df b : GotaDataFrame) (keys : List String) : GotaDataFrame :=
  if keys.isEmpty then errDF "join keys not specified"
  else
    match resolveKeys df b keys with
    | .error e => errDF e
    | .ok p =>
        let iKA := p.1
        let iKB := p.2
        let iNKA := notKeyIdxs df.ncols iKA
        let iNKB := notKeyIdxs b.ncols iKB
        let yes := (List.range b.nrows).flatMap (fun j =>
          ((List.range df.nrows).filter
              (fun i => rowMatch df.columns b.columns iKA iKB i j)).map (fun i => (i, j)))
        let nonm := (List.range b.nrows).filter (fun j =>
          (List.range df.nrows).all (fun i => ¬ rowMatch df.columns b.columns iKA iKB i j))
        let rows := yes.map (fun q => matchRow df b iKA iNKA iNKB q.1 q.2) ++
          nonm.map (fun j => rightPadRow b iKB iNKA iNKB j)
        New (fillCols (joinHeader df b iKA iNKA iNKB) rows)

/-- OuterJoin from gota_dataframe.go lines 1107-1233: the LeftJoin rows
followed by the unmatched right rows (keys from the right, left non-keys padded
missing).  No error gate. -/
def GotaDataFrame.OuterJoin (df b : GotaDataFrame) (keys : List String) : GotaDataFrame :=
  if keys.isEmpty then errDF "join keys not specified"
  else
    match resolveKeys df b keys with
    | .error e => errDF e
    | .ok p =>
        let iKA := p.1
        let iKB := p.2
        let iNKA := notKeyIdxs df.ncols iKA
        let iNKB := notKeyIdxs b.ncols iKB
        let leftRows := (List.range df.nrows).flatMap (leftJoinChunk df b iKA iKB iNKA iNKB)
        let nonm := (List.range b.nrows).filter (fun j =>
          (List.range df.nrows).all (fun i => ¬ rowMatch df.columns b.columns iKA iKB i j))
        let rows := leftRows ++ nonm.map (fun j => rightPadRow b iKB iNKA iNKB j)
        New (fillCols (joinHeader df b iKA iNKA iNKB) rows)

/-- CrossJoin from gota_dataframe.go lines 1236-1262: plain Cartesian product,
all left columns then all right columns; there is no key handling and — unlike
the gated operations — no check of either frame's error state. -/
def GotaDataFrame.CrossJoin (df b : GotaDataFrame) : GotaDataFrame :=
  let header := (List.range df.ncols).map (fun i => (df.columns.getD i default).Empty) ++
    (List.range b.ncols).map (fun i => (b.columns.getD i default).Empty)
  let rows := (List.range df.nrows).flatMap (fun i =>
    (List.range b.nrows).map (fun j =>
      (List.range df.ncols).map (fun c => some (colElem df.columns c i)) ++
        (List.range b.ncols).map (fun c => some (colElem b.columns c j))))
  New (fillCols header rows)

/-- Positional inverse of a permutation `p` of `range n`: position `i` holds
the index at which `i` occurs in `p`. -/
def invPerm (p : List Nat) (n : Nat) : List Nat :=
  (List.range n).map (fun i => p.indexOf i)

/-! Heap model for aliasing (claim about Mutate's copy semantics).  The pure
value model cannot express storage sharing, so column storage is made explicit:
each column's element slice lives in a heap cell, a column handle holds a
pointer, `Copy`/`New` allocate fresh cells (`GotaSeries.Copy` duplicates the
elements slice), and Mutate inserts the caller's handle as-is
(`columns[idx] = s` / `append(columns, s)`, gota_dataframe.go lines 516-522),
sharing its cell. -/

/-- Store of element slices. -/
structure Heap where
  cells : List (List Elem1)
deriving DecidableEq

/-- Column handle: metadata plus a pointer to its storage cell. -/
structure SRef where
  Name : String
  typ : SType
  ptr : Nat
  Err : Option String
deriving DecidableEq, Inhabited

/-- Read a cell. -/
def Heap.read (h : Heap) (p : Nat) : List Elem1 := h.cells.getD p []

/-- Allocate a fresh cell (bump allocator). -/
def Heap.alloc (h : Heap) (v : List Elem1) : Heap × Nat :=
  (⟨h.cells ++ [v]⟩, h.cells.length)

/-- Overwrite a cell. -/
def Heap.write (h : Heap) (p : Nat) (v : List Elem1) : Heap := ⟨h.cells.set p v⟩

/-- Length of a column through the heap. -/
def SRef.LenH (h : Heap) (s : SRef) : Nat := (h.read s.ptr).length

/-- Copy of one column: a fresh cell holding the same elements. -/
def copySeriesH (h : Heap) (s : SRef) : Heap × SRef :=
  let a := h.alloc (h.read s.ptr)
  (a.1, { s with ptr := a.2 })

/-- Copy of a column list, threading the heap. -/
def copyColsH (h : Heap) : List SRef → Heap × List SRef
  | [] => (h, [])
  | s :: rest =>
      let a := copySeriesH h s
      let b := copyColsH a.1 rest
      (b.1, a.2 :: b.2)

/-- Frame of column handles. -/
structure DFRef where
  columns : List SRef
  ncols : Nat
  nrows : Nat
  Err : Option String
deriving DecidableEq

/-- Zero-valued errored frame. -/
def errDFH (e : String) : DFRef := { columns := [], ncols := 0, nrows := 0, Err := some e }

/-- checkColumnsDimensions loop in the heap model. -/
def checkDimsLoopH (h : Heap) (nrows : Option Nat) : List SRef → Except String Nat
  | [] => .ok (nrows.getD 0)
  | s :: rest =>
      if s.Err.isSome then .error "error on series"
      else
        match nrows with
        | none => checkDimsLoopH h (some (s.LenH h)) rest
        | some n =>
            if n ≠ s.LenH h then .error "arguments have different dimensions"
            else checkDimsLoopH h (some n) rest

/-- checkColumnsDimensions in the heap model. -/
def checkColumnsDimensionsH (h : Heap) (se : List SRef) : Except String (Nat × Nat) :=
  if se.isEmpty then .error "no Series given"
  else
    match checkDimsLoopH h none se with
    | .error e => .error e
    | .ok nrows => .ok (nrows, se.length)

/-- The final renaming loop on handles. -/
def setNamesH (cols : List SRef) (names : List String) : List SRef :=
  (cols.zip names).map (fun p => { p.1 with Name := p.2 })

/-- New in the heap model (gota_dataframe.go lines 23-49): copies every column
into fresh storage, checks dimensions, fixes names. -/
def NewH (h : Heap) (se : List SRef) : Heap × DFRef :=
  if se.isEmpty then (h, errDFH "empty DataFrame")
  else
    let a := copyColsH h se
    match checkColumnsDimensionsH a.1 a.2 with
    | .error e => (a.1, errDFH e)
    | .ok p =>
        let df : DFRef := { columns := a.2, ncols := p.2, nrows := p.1, Err := none }
        (a.1, { df with columns := setNamesH df.columns (fixColnames (df.columns.map (·.Name))) })

/-- Copy of a frame (gota_dataframe.go lines 74-81). -/
def CopyH (h : Heap) (df : DFRef) : Heap × DFRef :=
  let a := NewH h df.columns
  match df.Err with
  | some e => (a.1, { a.2 with Err := some e })
  | none => a

/-- Mutate in the heap model (gota_dataframe.go lines 509-539): gate, dimension
check, frame copy, then `columns[idx] = s` or `append(columns, s)` — the
ingested handle itself, with its storage cell, is placed in the result. -/
def MutateH (h : Heap) (df : DFRef) (s : SRef) : Heap × DFRef :=
  match df.Err with
  | some _ => (h, df)
  | none =>
    if s.LenH h ≠ df.nrows then (h, errDFH "mutate: wrong dimensions")
    else
      let a := CopyH h df
      let columns :=
        match (df.columns.map (·.Name)).findIdx? (fun c => c == s.Name) with
        | some idx => a.2.columns.set idx s
        | none => a.2.columns ++ [s]
      match checkColumnsDimensionsH a.1 columns with
      | .error e => (a.1, errDFH e)
      | .ok p =>
          let df2 : DFRef := { columns := columns, ncols := p.2, nrows := p.1, Err := none }
          (a.1, { df2 with
            columns := setNamesH df2.columns (fixColnames (df2.columns.map (·.Name))) })

/-- In-place write of one element through a column handle (`Series.Set` at a
single position, dispatching through the element-level `Set`). -/
def seriesSetH (h : Heap) (s : SRef) (i : Nat) (v : EVal) : Heap :=
  h.write s.ptr ((h.read s.ptr).set i (elemSet ((h.read s.ptr).getD i default) v))

/-- Observable contents of a frame: each column's storage. -/
def observeH (h : Heap) (df : DFRef) : List (List Elem1) :=
  df.columns.map (fun c => h.read c.ptr)

/-! Helper lemmas (shared). -/

/-- A token-class existential is reflected by the corresponding `any` flag. -/
theorem any_tok_true {arr : List String} {t : SType}
    (h : ∃ s ∈ arr, tokClass s = some t) :
    arr.any (fun s => tokClass s == some t) = true := by
  simpa [List.any_eq_true] using h

/-- Negated token-class existential turns the corresponding `any` flag off. -/
theorem any_tok_false {arr : List String} {t : SType}
    (h : ¬∃ s ∈ arr, tokClass s = some t) :
    arr.any (fun s => tokClass s == some t) = false := by
  cases hx : arr.any (fun s => tokClass s == some t) with
  | false => rfl
  | true => exact absurd (by simpa [List.any_eq_true] using hx) h

/-- Join-key element equality is transitive through a shared left element. -/
theorem elemEq_trans {a b c : Elem1} (h1 : elemEq a b = true) (h2 : elemEq a c = true) :
    elemEq b c = true := by
  rcases a with ⟨av, an⟩
  rcases b with ⟨bv, bn⟩
  rcases c with ⟨cv, cn⟩
  cases av <;> cases bv <;> cases cv <;> simp_all [elemEq]

/-- The join fill fold keeps a column error-free and appends exactly one
element per emitted row. -/
theorem fill_foldl_spec (rows : List (List (Option Elem1))) (c : Nat) :
    ∀ col : Series1, col.Err = none →
      (rows.foldl (fun col row => col.AppendE (row.getD c none)) col).Err = none ∧
      (rows.foldl (fun col row => col.AppendE (row.getD c none)) col).Len =
        col.Len + rows.length := by
  induction rows with
  | nil => intro col h; exact ⟨h, by simp⟩
  | cons r rs ih =>
    intro col h
    simp only [List.foldl_cons]
    have h1 : (col.AppendE (r.getD c none)).Err = none ∧
        (col.AppendE (r.getD c none)).Len = col.Len + 1 := by
      unfold Series1.AppendE
      rw [h]
      cases r.getD c none with
      | some el => exact ⟨rfl, by simp [Series1.Len]⟩
      | none => exact ⟨rfl, by simp [Series1.Len]⟩
    obtain ⟨he, hl⟩ := h1
    obtain ⟨he2, hl2⟩ := ih _ he
    refine ⟨he2, ?_⟩
    rw [hl2, hl]
    simp [Nat.add_assoc, Nat.add_comm 1 rs.length]

/-- Every column of a keyed-join skeleton is empty and error-free. -/
theorem joinHeader_mem (df b : GotaDataFrame) (iKA iNKA iNKB : List Nat) :
    ∀ c ∈ joinHeader df b iKA iNKA iNKB, c.Err = none ∧ c.Len = 0 := by
  intro c hc
  unfold joinHeader at hc
  rcases List.mem_append.mp hc with hc2 | hc2
  · rcases List.mem_append.mp hc2 with hc3 | hc3
    · rcases List.mem_map.mp hc3 with ⟨i, _, rfl⟩
      exact ⟨rfl, rfl⟩
    · rcases List.mem_map.mp hc3 with ⟨i, _, rfl⟩
      exact ⟨rfl, rfl⟩
  · rcases List.mem_map.mp hc2 with ⟨i, _, rfl⟩
    exact ⟨rfl, rfl⟩

/-- Filled join columns: as many as the skeleton has, each error-free and one
element long per emitted row. -/
theorem fillCols_spec (header : List Series1) (rows : List (List (Option Elem1)))
    (hh : ∀ c ∈ header, c.Err = none ∧ c.Len = 0) :
    (fillCols header rows).length = header.length ∧
    ∀ c ∈ fillCols header rows, c.Err = none ∧ c.Len = rows.length := by
  refine ⟨by simp [fillCols], ?_⟩
  intro c hc
  unfold fillCols at hc
  rcases List.mem_map.mp hc with ⟨p, hp, rfl⟩
  rcases p with ⟨i, col⟩
  obtain ⟨hi, hcol⟩ := List.mem_enum hp
  have hm : col ∈ header := by rw [hcol]; exact List.getElem_mem hi
  obtain ⟨he, hl⟩ := hh col hm
  have := fill_foldl_spec rows i col he
  exact ⟨this.1, by rw [this.2, hl, Nat.zero_add]⟩

/-- checkDimsLoop on uniform error-free columns of common length L. -/
theorem checkDimsLoop_uniform (L : Nat) :
    ∀ se : List Series1, (∀ c ∈ se, c.Err = none ∧ c.Len = L) →
      checkDimsLoop (some L) se = .ok L ∧ (se ≠ [] → checkDimsLoop none se = .ok L) := by
  intro se
  induction se with
  | nil => intro _; exact ⟨rfl, fun hc => absurd rfl hc⟩
  | cons s rest ih =>
    intro h
    obtain ⟨he, hl⟩ := h s (List.mem_cons_self _ _)
    have hrest := ih (fun c hc => h c (List.mem_cons_of_mem _ hc))
    constructor
    · simp only [checkDimsLoop, he, Option.isSome_none, Bool.false_eq_true, if_false, hl]
      simpa using hrest.1
    · intro _
      simp only [checkDimsLoop, he, Option.isSome_none, Bool.false_eq_true, if_false, hl]
      exact hrest.1

/-- New on nonempty uniform error-free columns: row count L and no error. -/
theorem New_uniform (se : List Series1) (L : Nat) (hne : se ≠ [])
    (h : ∀ c ∈ se, c.Err = none ∧ c.Len = L) :
    (New se).nrows = L ∧ (New se).Err = none := by
  have hmapc : se.map Series1.Copy = se := by
    rw [show Series1.Copy = id from rfl, List.map_id]
  simp only [New, checkColumnsDimensions, hmapc, List.isEmpty_eq_false.mpr hne,
    Bool.false_eq_true, if_false, (checkDimsLoop_uniform L se h).2 hne]
  exact ⟨by trivial, by trivial⟩

/-- A list whose members are pairwise equal has at most one member when it has
no duplicates. -/
theorem length_le_one_of_unique {l : List Nat} (h : ∀ x ∈ l, ∀ y ∈ l, x = y)
    (hnd : l.Nodup) : l.length ≤ 1 := by
  match l with
  | [] => simp
  | [x] => simp
  | x :: y :: rest =>
      exfalso
      have hxy : x = y := h x (by simp) y (by simp)
      rw [List.nodup_cons] at hnd
      exact hnd.1 (by simp [hxy])

/-- Subset by an explicit index list on an error-free column: error-free, one
element per index. -/
theorem subset_ints_spec (c : Series1) (p : List Nat) (hc : c.Err = none) :
    c.Subset (.ints p) =
      { Name := c.Name, typ := c.typ
        elems := p.map (fun i => ⟨(c.ElemD i).val, false⟩), Err := none } := by
  simp [Series1.Subset, hc, parseIndexes]

/-- checkColumnsDimensions on nonempty uniform error-free columns. -/
theorem checkColumnsDimensions_uniform (se : List Series1) (L : Nat) (hne : se ≠ [])
    (h : ∀ c ∈ se, c.Err = none ∧ c.Len = L) :
    checkColumnsDimensions se = .ok (L, se.length) := by
  unfold checkColumnsDimensions
  rw [if_neg (by simpa [List.isEmpty_iff] using hne)]
  rw [(checkDimsLoop_uniform L se h).2 hne]

/-- Round trip of a single error-free, missing-free column through Subset by a
permutation and its positional inverse. -/
theorem series1_subset_perm (c : Series1) (n : Nat) (p pinv : List Nat)
    (hc : c.Err = none) (hlen : c.Len = n)
    (hnm : ∀ e ∈ c.elems, e.nan = false)
    (hplen : p.length = n)
    (hpinvlen : pinv.length = n) (hpinvmem : ∀ i ∈ pinv, i < n)
    (hcomp : ∀ j, j < n → p.getD (pinv.getD j 0) 0 = j) :
    (c.Subset (.ints p)).Subset (.ints pinv) = c := by
  have hs1 := subset_ints_spec c p hc
  have hs1e : (c.Subset (.ints p)).elems = p.map (fun i => ⟨(c.ElemD i).val, false⟩) := by
    rw [hs1]
  have hs1n : (c.Subset (.ints p)).Name = c.Name := by rw [hs1]
  have hs1t : (c.Subset (.ints p)).typ = c.typ := by rw [hs1]
  have hs1err : (c.Subset (.ints p)).Err = none := by rw [hs1]
  rw [subset_ints_spec _ pinv hs1err, hs1n, hs1t]
  have helems : pinv.map (fun i =>
      (⟨((c.Subset (.ints p)).ElemD i).val, false⟩ : Elem1)) = c.elems := by
    apply List.ext_getElem
    · simpa [hpinvlen] using hlen.symm
    · intro j h1 h2
      rw [List.getElem_map]
      have hjn : j < n := by
        rw [List.length_map, hpinvlen] at h1
        exact h1
      have hpj : pinv[j] < n := hpinvmem _ (List.getElem_mem (by rwa [hpinvlen]))
      have hlt : pinv[j] < (c.Subset (.ints p)).elems.length := by
        rw [hs1e]
        simp only [List.length_map]
        omega
      have hstep1 : (c.Subset (.ints p)).ElemD pinv[j] =
          ⟨(c.ElemD (p.get ⟨pinv[j], by omega⟩)).val, false⟩ := by
        unfold Series1.ElemD
        rw [List.getD_eq_getElem _ _ hlt]
        simp only [hs1e, List.getElem_map]
        rfl
      rw [hstep1]
      have hcompj : p.get ⟨pinv[j], by omega⟩ = j := by
        have hco := hcomp j hjn
        rw [List.getD_eq_getElem _ _ (show j < pinv.length by omega)] at hco
        rw [List.getD_eq_getElem _ _ (show pinv[j] < p.length by omega)] at hco
        exact hco
      rw [hcompj]
      have hje : j < c.elems.length := h2
      have hcd : c.ElemD j = c.elems[j] := by
        unfold Series1.ElemD
        exact List.getD_eq_getElem _ _ hje
      rw [hcd]
      have hnan : (c.elems[j]).nan = false := hnm _ (List.getElem_mem hje)
      cases he : c.elems[j] with
      | mk v nn =>
        rw [he] at hnan
        simp only at hnan
        simp [hnan]
  rw [helems]
  rcases c with ⟨cn, ct, ce, cerr⟩
  simp only [Series1.mk.injEq]
  refine ⟨by trivial, by trivial, by trivial, by simpa using hc.symm⟩

/-- Subset of an error-free frame by an explicit index list: every column is
subset identically and the row count becomes the index count. -/
theorem df_subset_ints (df : GotaDataFrame) (q : List Nat) (herr : df.Err = none)
    (hne : df.columns ≠ []) (hu : ∀ c ∈ df.columns, c.Err = none) :
    df.Subset (.ints q) =
      { columns := df.columns.map (fun c => c.Subset (.ints q)),
        ncols := df.columns.length, nrows := q.length, Err := none } := by
  have hcols1 : ∀ c ∈ df.columns.map (fun c => c.Subset (.ints q)),
      c.Err = none ∧ c.Len = q.length := by
    intro c1 hc1
    rcases List.mem_map.mp hc1 with ⟨c, hcmem, rfl⟩
    rw [subset_ints_spec c q (hu c hcmem)]
    exact ⟨rfl, by simp [Series1.Len]⟩
  have hne1 : df.columns.map (fun c => c.Subset (.ints q)) ≠ [] := by
    simpa using hne
  simp only [GotaDataFrame.Subset, herr]
  rw [checkColumnsDimensions_uniform _ q.length hne1 hcols1]
  simp

/-- Field-wise extensionality for frames. -/
theorem GotaDataFrame.ext1 {a b : GotaDataFrame} (h1 : a.columns = b.columns)
    (h2 : a.ncols = b.ncols) (h3 : a.nrows = b.nrows) (h4 : a.Err = b.Err) : a = b := by
  cases a
  cases b
  simp_all

/-- copyColsH preserves the number of columns. -/
theorem copyColsH_len (se : List SRef) : ∀ h : Heap, (copyColsH h se).2.length = se.length := by
  induction se with
  | nil => intro h; rfl
  | cons s rest ih => intro h; simp [copyColsH, ih]

/-- fixColnames preserves the number of names. -/
theorem fixColnames_length (names : List String) : (fixColnames names).length = names.length := by
  simp [fixColnames]

/-- setNamesH yields one handle per zipped pair. -/
theorem setNamesH_length (cols : List SRef) (names : List String) :
    (setNamesH cols names).length = min cols.length names.length := by
  simp [setNamesH]

/-- Renaming handles never changes their storage pointers. -/
theorem setNamesH_ptr_exists (cols : List SRef) (names : List String) (idx : Nat)
    (hidx : idx < cols.length) (hn : cols.length ≤ names.length) :
    ∃ c ∈ setNamesH cols names, c.ptr = (cols.get ⟨idx, hidx⟩).ptr := by
  have hlt : idx < (setNamesH cols names).length := by
    rw [setNamesH_length]
    omega
  refine ⟨(setNamesH cols names).get ⟨idx, hlt⟩, List.getElem_mem hlt, ?_⟩
  simp [setNamesH, List.get_eq_getElem, List.getElem_map, List.getElem_zip]

/-- A NewH result either failed (no columns) or has as many columns as given. -/
theorem NewH_columns_shape (h : Heap) (se : List SRef) :
    (NewH h se).2.columns = [] ∨ (NewH h se).2.columns.length = se.length := by
  unfold NewH
  by_cases hse : se.isEmpty
  · rw [if_pos hse]
    exact Or.inl rfl
  · rw [if_neg hse]
    cases hchk : checkColumnsDimensionsH (copyColsH h se).1 (copyColsH h se).2 with
    | error e =>
        simp only [hchk]
        exact Or.inl rfl
    | ok p =>
        simp only [hchk]
        right
        simp [setNamesH_length, fixColnames_length, copyColsH_len]

/-- Sum of a map that is constantly one. -/
theorem sum_map_ones {α : Type} (l : List α) (f : α → Nat) (h : ∀ x ∈ l, f x = 1) :
    (l.map f).sum = l.length := by
  induction l with
  | nil => rfl
  | cons x xs ih =>
    simp only [List.map_cons, List.sum_cons, h x (List.mem_cons_self _ _), List.length_cons]
    rw [ih (fun y hy => h y (List.mem_cons_of_mem _ hy))]
    omega

/-- LeftJoin in the successful key-resolution case, written with the named
chunk function. -/
theorem leftJoin_ok (df b : GotaDataFrame) (keys : List String) (iKA iKB : List Nat)
    (hkeys : keys.isEmpty = false) (hres : resolveKeys df b keys = .ok (iKA, iKB)) :
    df.LeftJoin b keys =
      New (fillCols
        (joinHeader df b iKA (notKeyIdxs df.ncols iKA) (notKeyIdxs b.ncols iKB))
        ((List.range df.nrows).flatMap
          (leftJoinChunk df b iKA iKB (notKeyIdxs df.ncols iKA) (notKeyIdxs b.ncols iKB)))) := by
  simp only [GotaDataFrame.LeftJoin, hkeys, Bool.false_eq_true, if_false, hres]

/-- Stability upgrade for a sorted list: if a list is pairwise nondecreasing on
a key and, for every key value, its sublist at that value is pairwise
increasing on an index, then the list is pairwise lexicographic (strict key
first, index as tie break). -/
theorem pairwise_lex_of_stable {β γ : Type} [LinearOrder γ] (key : β → γ) (idx : β → Nat) :
    ∀ m : List β, m.Pairwise (fun a b => key a ≤ key b) →
      (∀ v : γ, (m.filter (fun a => decide (key a = v))).Pairwise (fun a b => idx a < idx b)) →
      m.Pairwise (fun a b => key a < key b ∨ (key a = key b ∧ idx a < idx b))
  | [], _, _ => List.Pairwise.nil
  | x :: t, hle, hfil => by
    rcases List.pairwise_cons.mp hle with ⟨hx, ht⟩
    refine List.pairwise_cons.mpr ⟨?_, ?_⟩
    · intro a ha
      rcases lt_or_eq_of_le (hx a ha) with h | h
      · exact Or.inl h
      · refine Or.inr ⟨h, ?_⟩
        have hv := hfil (key x)
        have hhead : (x :: t).filter (fun a => decide (key a = key x)) =
            x :: t.filter (fun a => decide (key a = key x)) := by
          simp [List.filter]
        rw [hhead] at hv
        rcases List.pairwise_cons.mp hv with ⟨hidx, _⟩
        exact hidx a (List.mem_filter.mpr ⟨ha, by simp [h.symm]⟩)
    · refine pairwise_lex_of_stable key idx t ht ?_
      intro v
      exact List.Pairwise.sublist (List.Sublist.filter _ (List.sublist_cons_self x t)) (hfil v)

/-- Stability of the insertion sort, key-filtered form: sorting by a
nondecreasing key keeps the relative order of elements of equal key, so the
sorted output filtered at any key value is exactly the filtered input. -/
theorem insertionSort_filter_key {β γ : Type} [LinearOrder γ] (key : β → γ)
    (r : β → β → Prop) [DecidableRel r] (hr : ∀ a b, r a b ↔ key a ≤ key b)
    (ie : List β) (v : γ) :
    (List.insertionSort r ie).filter (fun a => decide (key a = v)) =
      ie.filter (fun a => decide (key a = v)) := by
  have hpair : (ie.filter (fun a => decide (key a = v))).Pairwise r := by
    apply List.pairwise_of_forall_mem_list
    intro a ha b hb
    have hka : key a = v := by simpa using List.of_mem_filter ha
    have hkb : key b = v := by simpa using List.of_mem_filter hb
    exact (hr a b).mpr (by rw [hka, hkb])
  have hsub : (ie.filter (fun a => decide (key a = v))).Sublist (List.insertionSort r ie) :=
    List.sublist_insertionSort hpair (List.filter_sublist ie)
  have hsub2 : (ie.filter (fun a => decide (key a = v))).Sublist
      ((List.insertionSort r ie).filter (fun a => decide (key a = v))) := by
    have h1 := List.Sublist.filter (fun a => decide (key a = v)) hsub
    rwa [List.filter_filter, show ((fun a => decide (key a = v) && decide (key a = v))) =
      (fun a => decide (key a = v)) from funext (fun a => by cases hd : decide (key a = v) <;> simp [hd])] at h1
  have hlen : ((List.insertionSort r ie).filter (fun a => decide (key a = v))).length =
      (ie.filter (fun a => decide (key a = v))).length :=
    ((List.perm_insertionSort r ie).filter _).length_eq
  exact (List.Sublist.eq_of_length hsub2 hlen.symm).symm

/-- Setting a position to an element with the same `nan` flag leaves the
missing-flag array of a list of elements unchanged. -/
theorem map_nan_set {α : Type} (l : List (ElementValue α)) (i : Nat) (e : ElementValue α)
    (h : ∀ d, e.nan = (l.getD i d).nan) :
    (l.set i e).map (·.nan) = l.map (·.nan) := by
  induction l generalizing i with
  | nil => rfl
  | cons x xs ih =>
    cases i with
    | zero =>
        simp only [List.set, List.map]
        have := h x
        simp only [List.getD, List.get?] at this
        simp [this]
    | succ n =>
        simp only [List.set, List.map]
        rw [ih]
        intro d
        have := h d
        simpa [List.getD] using this

/-- The `Set` loop never changes any missing flag: each write goes through the
generic element `Set`, which keeps the flag of the overwritten element. -/
theorem setLoop_map_nan {α : Type} [Inhabited α] (idx : List Nat)
    (elems : List (ElementValue α)) (k : Nat) (nv : GotaSeries α) :
    (setLoop elems idx k nv).1.map (·.nan) = elems.map (·.nan) := by
  induction idx generalizing elems k with
  | nil => rfl
  | cons i rest ih =>
    simp only [setLoop]
    split
    · rfl
    · rename_i hge
      rw [ih]
      apply map_nan_set
      intro d
      have hlt : i < elems.length := by omega
      simp [ElementValue.Set, List.getD, List.getElem?_eq_getElem hlt]

/-- C2 (counterexample): the claim says a missing element is never `Eq` to a
present one for every element type including Boolean; but `BoolElementValue.Eq`
compares the raw values only, so the missing Boolean element `{false, nan}` is
`Eq` to the present element `{false}`. -/
theorem c2_counterexample :
    BoolElementValue.EqGo ⟨false, true⟩ ⟨false, false⟩ = true ∧
    (BoolElementValue.IsNA ⟨false, true⟩ = true ∧ BoolElementValue.IsNA ⟨false, false⟩ = false) := by
  decide

/-- C2 (amended): for the generic element type, `Eq` returns true exactly when
the missing flags agree and the values agree (hence a missing generic element is
never `Eq` to a present one); the Boolean element's `Eq` instead returns true
exactly when the raw values agree, ignoring the missing flags. -/
theorem c2_eq_flags_and_values_amended :
    (∀ (α : Type) [DecidableEq α] (a b : ElementValue α),
        a.EqGo b = true ↔ (a.nan = b.nan ∧ a.value = b.value)) ∧
    (∀ a b : BoolElementValue, a.EqGo b = true ↔ a.value = b.value) := by
  refine ⟨fun α _ a b => ?_, fun a b => ?_⟩
  · simp [ElementValue.EqGo]
  · simp [BoolElementValue.EqGo]

/-- C10: the generic element `Set` preserves the missing flag, the Boolean
element `Set` clears it, and consequently `GotaSeries.Set` never changes the
`IsNaN` array of a generic series — a missing position stays missing. -/
theorem c10_set_keeps_missing_flag :
    (∀ (α : Type) (e : ElementValue α) (v : α), (e.Set v).nan = e.nan) ∧
    (∀ (e : BoolElementValue) (v : Bool), (e.Set v).nan = false) ∧
    (∀ (α : Type) [Inhabited α] (s : GotaSeries α) (indexes : Indexes) (nv : GotaSeries α),
        (s.Set indexes nv).IsNaN = s.IsNaN) := by
  refine ⟨fun α e v => rfl, fun e v => rfl, fun α _ s indexes nv => ?_⟩
  unfold GotaSeries.Set
  cases hs : s.Err with
  | some e => rfl
  | none =>
    cases hn : nv.Err with
    | some e => rfl
    | none =>
      cases hp : parseIndexes s.Len indexes with
      | error e => rfl
      | ok idx =>
        by_cases hd : idx.length ≠ nv.Len
        · simp [hd, GotaSeries.IsNaN]
        · simp only [hd, if_false, if_neg hd, GotaSeries.IsNaN]
          exact setLoop_map_nan idx s.elements 0 nv

/-- C8 (counterexample): the claim says `Slice(j,k)` fails exactly when `j > k`,
`j < 0` or `k` exceeds the length, so `Slice(0,1)` on a column of length 1
should succeed; the code's bound check is `k >= s.Len()` and it fails. -/
theorem c8_counterexample :
    ((NewSeries "x" ([5] : List Int)).Slice 0 1).Err ≠ none ∧
    ¬((0 : Int) > 1 ∨ (0 : Int) < 0 ∨ (1 : Int) > ((NewSeries "x" ([5] : List Int)).Len : Int)) := by
  decide

/-- C8 (amended): for an error-free column of length n, `Slice(j,k)` succeeds
exactly when `j ≤ k`, `0 ≤ j` and `k < n` (so `Slice(j,n)` always fails), and on
success it returns exactly `Subset` applied to the contiguous range `[j,k)`. -/
theorem c8_slice_amended (s : GotaSeries Int) (j k : Int) (hs : s.Err = none) :
    (((s.Slice j k).Err = none) ↔ (j ≤ k ∧ 0 ≤ j ∧ k < (s.Len : Int))) ∧
    (s.Slice j k = s.Subset (.ints ((List.range (k - j).toNat).map (fun i => j.toNat + i))) ∨
      (s.Slice j k).Err = some "slice index out of bounds") := by
  unfold GotaSeries.Slice
  rw [hs]
  by_cases h : j > k ∨ j < 0 ∨ k ≥ (s.Len : Int)
  · simp only [h, if_pos h]
    refine ⟨?_, Or.inr rfl⟩
    constructor
    · intro habs; exact absurd habs (by simp)
    · intro ⟨h1, h2, h3⟩; omega
  · simp only [if_neg h]
    push_neg at h
    obtain ⟨h1, h2, h3⟩ := h
    refine ⟨?_, Or.inl (by simp)⟩
    constructor
    · intro _; exact ⟨h1, h2, h3⟩
    · intro _
      unfold GotaSeries.Subset
      rw [hs]
      rfl

/-- C8 (witness): the amended theorem applied at the concrete column `[10,20,30]`
with `j = 1`, `k = 2`. -/
theorem c8_slice_amended_witness :
    (NewSeries "nums" ([10, 20, 30] : List Int)).Err = none ∧
    ((((NewSeries "nums" ([10, 20, 30] : List Int)).Slice 1 2).Err = none) ↔
      ((1 : Int) ≤ 2 ∧ (0 : Int) ≤ 1 ∧ (2 : Int) < ((NewSeries "nums" ([10, 20, 30] : List Int)).Len : Int))) ∧
    ((NewSeries "nums" ([10, 20, 30] : List Int)).Slice 1 2 =
        (NewSeries "nums" ([10, 20, 30] : List Int)).Subset
          (.ints ((List.range ((2 : Int) - 1).toNat).map (fun i => (1 : Int).toNat + i))) ∨
      ((NewSeries "nums" ([10, 20, 30] : List Int)).Slice 1 2).Err = some "slice index out of bounds") := by
  refine ⟨rfl, c8_slice_amended (NewSeries "nums" ([10, 20, 30] : List Int)) 1 2 rfl⟩

/-- C5: type inference ignores empty and `"NaN"` tokens, classifies the rest by
the Integer → Float → Boolean → Text chain (`tokClass`), picks the column type
by the priority Text > Boolean > Float > Integer independent of frequency,
errors when every token was ignored, and gives the five concrete results listed
in the claim. -/
theorem c5_find_type_priority :
    (∀ arr : List String, (∃ s ∈ arr, tokClass s = some SType.str) →
        findType arr = (SType.str, none)) ∧
    (∀ arr : List String, (¬∃ s ∈ arr, tokClass s = some SType.str) →
        (∃ s ∈ arr, tokClass s = some SType.bool) →
        findType arr = (SType.bool, none)) ∧
    (∀ arr : List String, (¬∃ s ∈ arr, tokClass s = some SType.str) →
        (¬∃ s ∈ arr, tokClass s = some SType.bool) →
        (∃ s ∈ arr, tokClass s = some SType.float) →
        findType arr = (SType.float, none)) ∧
    (∀ arr : List String, (¬∃ s ∈ arr, tokClass s = some SType.str) →
        (¬∃ s ∈ arr, tokClass s = some SType.bool) →
        (¬∃ s ∈ arr, tokClass s = some SType.float) →
        (∃ s ∈ arr, tokClass s = some SType.int) →
        findType arr = (SType.int, none)) ∧
    (∀ arr : List String, (∀ s ∈ arr, tokClass s = none) →
        findType arr = (SType.str, some "couldn't detect type")) ∧
    (findType ["1", "2", "3"] = (SType.int, none) ∧
      findType ["1", "2.5"] = (SType.float, none) ∧
      findType ["true", "false"] = (SType.bool, none) ∧
      findType ["1", "a"] = (SType.str, none) ∧
      findType ["NaN", ""] = (SType.str, some "couldn't detect type")) := by
  refine ⟨?_, ?_, ?_, ?_, ?_, by decide⟩
  · intro arr h
    simp [findType, any_tok_true h]
  · intro arr hs h
    simp [findType, any_tok_false hs, any_tok_true h]
  · intro arr hs hb h
    simp [findType, any_tok_false hs, any_tok_false hb, any_tok_true h]
  · intro arr hs hb hf h
    simp [findType, any_tok_false hs, any_tok_false hb, any_tok_false hf, any_tok_true h]
  · intro arr h
    have hnone : ∀ t : SType, ¬∃ s ∈ arr, tokClass s = some t := by
      intro t ⟨s, hmem, hsome⟩
      rw [h s hmem] at hsome
      exact Option.noConfusion hsome
    simp [findType, any_tok_false (hnone SType.str), any_tok_false (hnone SType.bool),
      any_tok_false (hnone SType.float), any_tok_false (hnone SType.int)]

/-- C5 (witness): the Boolean-priority component applied at the concrete token
list `["true", "1"]`. -/
theorem c5_find_type_priority_witness :
    (¬∃ s ∈ ["true", "1"], tokClass s = some SType.str) ∧
    (∃ s ∈ ["true", "1"], tokClass s = some SType.bool) ∧
    findType ["true", "1"] = (SType.bool, none) :=
  ⟨by decide, by decide, c5_find_type_priority.2.1 ["true", "1"] (by decide) (by decide)⟩

/-- C6: for every column, `Order(reverse)` is a permutation of the positions in
which the positions of non-missing elements come first, stably sorted by value
(ascending unless `reverse`, original position as tie break), and the positions
of missing elements are appended at the end in order of appearance regardless
of direction; and on the concrete column `[3,1,2,missing]`, `Order(false)`
returns `[1,2,0,3]`. -/
theorem c6_order_spec :
    (∀ (α : Type) [LinearOrder α] [Inhabited α] (s : GotaSeries α) (reverse : Bool),
      (s.Order reverse).Perm (List.range s.Len) ∧
      (∀ i ∈ (s.Order reverse).take (orderIE s).length, (s.ElemD i).nan = false) ∧
      ((s.Order reverse).take (orderIE s).length).Pairwise (fun i j =>
          (if reverse then (s.ElemD j).value < (s.ElemD i).value
            else (s.ElemD i).value < (s.ElemD j).value) ∨
          ((s.ElemD i).value = (s.ElemD j).value ∧ i < j)) ∧
      (s.Order reverse).drop (orderIE s).length =
        (List.range s.Len).filter (fun i => (s.ElemD i).nan)) ∧
    (GotaSeries.Order
        ⟨"c", [⟨3, false⟩, ⟨1, false⟩, ⟨2, false⟩, ⟨0, true⟩], none⟩ false =
      ([1, 2, 0, 3] : List Nat)) := by
  constructor
  · intro α _ _ s reverse
    have horder : s.Order reverse =
        ((List.insertionSort (fun a b => orderLe reverse a b = true) (orderIE s)).map
            (fun p => p.1)) ++
          (List.range s.Len).filter (fun i => (s.ElemD i).nan) := rfl
    have hlenmap :
        ((List.insertionSort (fun a b => orderLe reverse a b = true) (orderIE s)).map
            (fun p => p.1)).length = (orderIE s).length := by
      simp [List.length_insertionSort]
    have hpermsort := List.perm_insertionSort (fun a b => orderLe reverse a b = true) (orderIE s)
    have hmapie : (orderIE s).map (fun p => p.1) =
        (List.range s.Len).filter (fun i => !(s.ElemD i).nan) := by
      unfold orderIE
      rw [List.map_map]
      rw [show ((fun p : Nat × ElementValue α => p.1) ∘ fun i => (i, s.ElemD i)) =
        fun i => i from rfl]
      simp
    have htake : (s.Order reverse).take (orderIE s).length =
        (List.insertionSort (fun a b => orderLe reverse a b = true) (orderIE s)).map
          (fun p => p.1) := by
      rw [horder, List.take_left' hlenmap]
    have hdrop : (s.Order reverse).drop (orderIE s).length =
        (List.range s.Len).filter (fun i => (s.ElemD i).nan) := by
      rw [horder, List.drop_left' hlenmap]
    have hmem2 : ∀ a ∈ List.insertionSort (fun a b => orderLe reverse a b = true) (orderIE s),
        a.2 = s.ElemD a.1 ∧ a.1 ∈ (List.range s.Len).filter (fun i => !(s.ElemD i).nan) := by
      intro a ha
      have hmem : a ∈ orderIE s := hpermsort.mem_iff.mp ha
      unfold orderIE at hmem
      rcases List.mem_map.mp hmem with ⟨j, hj, rfl⟩
      exact ⟨rfl, hj⟩
    refine ⟨?_, ?_, ?_, hdrop⟩
    · rw [horder]
      refine ((hpermsort.map (fun p => p.1)).append_right _).trans ?_
      rw [hmapie]
      have hsplit := List.filter_append_perm (fun i => !(s.ElemD i).nan) (List.range s.Len)
      simpa [Bool.not_not] using hsplit
    · intro i hi
      rw [htake] at hi
      rcases List.mem_map.mp hi with ⟨a, ha, rfl⟩
      have := (hmem2 a ha).2
      simpa using List.of_mem_filter this
    · rw [htake, List.pairwise_map]
      have hidx : (orderIE s).Pairwise (fun a b => a.1 < b.1) := by
        unfold orderIE
        rw [List.pairwise_map]
        exact (List.pairwise_lt_range s.Len).filter _
      cases reverse with
      | false =>
        have hr : ∀ a b : Nat × ElementValue α,
            (orderLe false a b = true) ↔ a.2.value ≤ b.2.value := by
          intro a b; simp [orderLe]
        have hsorted :
            (List.insertionSort (fun a b => orderLe false a b = true) (orderIE s)).Pairwise
              (fun a b => orderLe false a b = true) := by
          haveI : IsTotal (Nat × ElementValue α) (fun a b => orderLe false a b = true) :=
            ⟨fun a b => by rw [hr, hr]; exact le_total _ _⟩
          haveI : IsTrans (Nat × ElementValue α) (fun a b => orderLe false a b = true) :=
            ⟨fun a b c h1 h2 => by rw [hr] at *; exact le_trans h1 h2⟩
          exact List.sorted_insertionSort _ _
        have hle : (List.insertionSort (fun a b => orderLe false a b = true)
            (orderIE s)).Pairwise (fun a b => a.2.value ≤ b.2.value) :=
          hsorted.imp (fun h => (hr _ _).mp h)
        have hfil : ∀ v : α,
            ((List.insertionSort (fun a b => orderLe false a b = true) (orderIE s)).filter
              (fun a => decide (a.2.value = v))).Pairwise (fun a b => a.1 < b.1) := by
          intro v
          rw [insertionSort_filter_key (fun a : Nat × ElementValue α => a.2.value)
            (fun a b => orderLe false a b = true) hr (orderIE s) v]
          exact hidx.filter _
        have hlex := pairwise_lex_of_stable (fun a : Nat × ElementValue α => a.2.value)
          (fun a => a.1) _ hle hfil
        refine hlex.imp_of_mem ?_
        intro a b ha hb h
        simp only at h
        rw [(hmem2 a ha).1, (hmem2 b hb).1] at h
        simpa using h
      | true =>
        have hr : ∀ a b : Nat × ElementValue α,
            (orderLe true a b = true) ↔
              OrderDual.toDual a.2.value ≤ OrderDual.toDual b.2.value := by
          intro a b; simp [orderLe, OrderDual.toDual_le_toDual]
        have hsorted :
            (List.insertionSort (fun a b => orderLe true a b = true) (orderIE s)).Pairwise
              (fun a b => orderLe true a b = true) := by
          haveI : IsTotal (Nat × ElementValue α) (fun a b => orderLe true a b = true) :=
            ⟨fun a b => by rw [hr, hr]; exact le_total _ _⟩
          haveI : IsTrans (Nat × ElementValue α) (fun a b => orderLe true a b = true) :=
            ⟨fun a b c h1 h2 => by rw [hr] at *; exact le_trans h1 h2⟩
          exact List.sorted_insertionSort _ _
        have hle : (List.insertionSort (fun a b => orderLe true a b = true)
            (orderIE s)).Pairwise (fun a b =>
              OrderDual.toDual a.2.value ≤ OrderDual.toDual b.2.value) :=
          hsorted.imp (fun h => (hr _ _).mp h)
        have hfil : ∀ v : αᵒᵈ,
            ((List.insertionSort (fun a b => orderLe true a b = true) (orderIE s)).filter
              (fun a => decide (OrderDual.toDual a.2.value = v))).Pairwise
              (fun a b => a.1 < b.1) := by
          intro v
          rw [insertionSort_filter_key
            (fun a : Nat × ElementValue α => OrderDual.toDual a.2.value)
            (fun a b => orderLe true a b = true) hr (orderIE s) v]
          exact hidx.filter _
        have hlex := pairwise_lex_of_stable
          (fun a : Nat × ElementValue α => OrderDual.toDual a.2.value) (fun a => a.1) _ hle hfil
        refine hlex.imp_of_mem ?_
        intro a b ha hb h
        simp only at h
        rw [(hmem2 a ha).1, (hmem2 b hb).1] at h
        have hres : (s.ElemD b.1).value < (s.ElemD a.1).value ∨
            ((s.ElemD a.1).value = (s.ElemD b.1).value ∧ a.1 < b.1) := by
          rcases h with h | ⟨heq, hlt⟩
          · exact Or.inl (by simpa using OrderDual.toDual_lt_toDual.mp h)
          · refine Or.inr ⟨?_, hlt⟩
            have h2 := congrArg OrderDual.ofDual heq
            simpa using h2
        simpa using hres
  · decide

/-- C1 (counterexample): the claim says every derived-producing operation —
the joins included — returns a result carrying the same error; but the joins
never check the receiver's error state: on an errored (hence column-less)
frame, CrossJoin returns a fresh "empty DataFrame" error and InnerJoin a fresh
missing-key error, not the original error. -/
theorem c1_counterexample :
    ((errDF "boom").CrossJoin (errDF "boom")).Err ≠ (errDF "boom").Err ∧
    ((errDF "boom").InnerJoin (errDF "boom") ["id"]).Err ≠ (errDF "boom").Err := by
  decide

/-- C1 (amended): every derived-producing operation that checks the error
state — Subset, Select, Drop, Set, Rename, CBind, RBind, Concat, Mutate,
FilterAggregation, Arrange, CApply, RApply — returns the errored frame
untouched, performing no work on the columns; the five joins perform no such
check and return fresh errors on an errored frame instead. -/
theorem c1_error_propagation_amended (df : GotaDataFrame) (e : String)
    (h : df.Err = some e) :
    (∀ idx : Indexes, df.Subset idx = df) ∧
    (∀ sel : SelectIndexes, df.Select sel = df) ∧
    (∀ sel : SelectIndexes, df.Drop sel = df) ∧
    (∀ (idx : Indexes) (nv : GotaDataFrame), df.Set idx nv = df) ∧
    (∀ n o : String, df.Rename n o = df) ∧
    (∀ dfb : GotaDataFrame, df.CBind dfb = df) ∧
    (∀ dfb : GotaDataFrame, df.RBind dfb = df) ∧
    (∀ dfb : GotaDataFrame, df.Concat dfb = df) ∧
    (∀ s : Series1, df.Mutate s = df) ∧
    (∀ (agg : Int) (fs : List F), df.FilterAggregation agg fs = POr.ok df) ∧
    (∀ ord : List Order1, df.Arrange ord = df) ∧
    (∀ f : Series1 → Series1, df.CApply f = df) ∧
    (∀ f : Series1 → Series1, df.RApply f = POr.ok df) ∧
    ((errDF "boom").CrossJoin (errDF "boom") ≠ errDF "boom") ∧
    ((errDF "boom").InnerJoin (errDF "boom") ["id"] ≠ errDF "boom") ∧
    ((errDF "boom").LeftJoin (errDF "boom") ["id"] ≠ errDF "boom") ∧
    ((errDF "boom").RightJoin (errDF "boom") ["id"] ≠ errDF "boom") ∧
    ((errDF "boom").OuterJoin (errDF "boom") ["id"] ≠ errDF "boom") := by
  refine ⟨fun idx => ?_, fun sel => ?_, fun sel => ?_, fun idx nv => ?_, fun n o => ?_,
    fun dfb => ?_, fun dfb => ?_, fun dfb => ?_, fun s => ?_, fun agg fs => ?_,
    fun ord => ?_, fun f => ?_, fun f => ?_, by decide, by decide, by decide, by decide,
    by decide⟩
  · simp [GotaDataFrame.Subset, h]
  · simp [GotaDataFrame.Select, h]
  · simp [GotaDataFrame.Drop, h]
  · simp [GotaDataFrame.Set, h]
  · simp [GotaDataFrame.Rename, h]
  · simp [GotaDataFrame.CBind, h]
  · simp [GotaDataFrame.RBind, h]
  · simp [GotaDataFrame.Concat, h]
  · simp [GotaDataFrame.Mutate, h]
  · simp [GotaDataFrame.FilterAggregation, h]
  · simp [GotaDataFrame.Arrange, h]
  · simp [GotaDataFrame.CApply, h]
  · simp [GotaDataFrame.RApply, h]

/-- C1 (witness): the amended theorem applied to a concrete errored frame. -/
theorem c1_error_propagation_amended_witness :
    (errDF "x").Err = some "x" ∧
    (errDF "x").Subset (Indexes.ints []) = errDF "x" ∧
    (errDF "x").Mutate default = errDF "x" ∧
    (errDF "x").FilterAggregation 0 [] = POr.ok (errDF "x") := by
  have h := c1_error_propagation_amended (errDF "x") "x" rfl
  exact ⟨rfl, h.1 (Indexes.ints []), h.2.2.2.2.2.2.2.2.1 default, h.2.2.2.2.2.2.2.2.2.1 0 []⟩

/-- C4 (counterexample): the claim says no core operation aborts the process —
in particular `Series.Compare` with an operand of any type returns an
inspectable result; but its type switch's `default` branch panics on an
operand of unsupported dynamic type. -/
theorem c4_counterexample :
    GotaSeries.Compare (NewSeries "x" ([1] : List Rat)) Comparator.Eq CompVal.other =
      POr.crash "invalid type found for compare" := by
  rfl

/-- C4 (amended): operations invoked on an already-errored Column/Table
short-circuit without aborting (Compare returns the errored column,
FilterAggregation and RApply return the errored frame); but on error-free
inputs Compare panics on an operand of unsupported dynamic type, and
FilterAggregation panics on an Aggregation value other than Or/And when it
combines at least two filters over at least one row. -/
theorem c4_no_abort_amended :
    (∀ (s : GotaSeries Rat) (e : String) (c : Comparator) (cv : CompVal),
        s.Err = some e → s.Compare c cv = POr.ok (CmpRes.errSelf s)) ∧
    (∀ (df : GotaDataFrame) (e : String) (agg : Int) (fs : List F),
        df.Err = some e → df.FilterAggregation agg fs = POr.ok df) ∧
    (∀ (df : GotaDataFrame) (e : String) (f : Series1 → Series1),
        df.Err = some e → df.RApply f = POr.ok df) ∧
    (GotaSeries.Compare (NewSeries "y" ([2] : List Rat)) Comparator.Less CompVal.other =
      POr.crash "invalid type found for compare") ∧
    (GotaDataFrame.FilterAggregation (New [⟨"a", SType.int, [⟨EVal.vi 1, false⟩], none⟩]) 2
        [⟨0, "", Comparator.Eq, FCompVal.num 1⟩, ⟨0, "", Comparator.Eq, FCompVal.num 1⟩] =
      POr.crash "unknown aggregation") := by
  refine ⟨fun s e c cv hs => ?_, fun df e agg fs hdf => ?_, fun df e f hdf => ?_, rfl, by decide⟩
  · simp [GotaSeries.Compare, hs]
  · simp [GotaDataFrame.FilterAggregation, hdf]
  · simp [GotaDataFrame.RApply, hdf]

/-- C4 (witness): the short-circuit components applied to concrete errored
inputs. -/
theorem c4_no_abort_amended_witness :
    ({ Name := "e", elements := [], Err := some "bad" } : GotaSeries Rat).Err = some "bad" ∧
    GotaSeries.Compare { Name := "e", elements := [], Err := some "bad" } Comparator.Eq
        (CompVal.cfloat 1) =
      POr.ok (CmpRes.errSelf { Name := "e", elements := [], Err := some "bad" }) ∧
    (errDF "bad").RApply id = POr.ok (errDF "bad") := by
  refine ⟨rfl, c4_no_abort_amended.1 _ "bad" _ _ rfl, c4_no_abort_amended.2.2.1 _ "bad" id rfl⟩

/-- C7 (counterexample): the claim conditions the row-count equality only on
the LEFT frame having no duplicate rows per key.  Take A with the single row
id=1 (trivially duplicate-free per key) and B with two id=1 rows: the left row
matches both right rows, so LeftJoin emits 2 rows while A has 1. -/
theorem c7_counterexample :
    (∀ j1 ∈ List.range (New [⟨"id", SType.int, [⟨EVal.vi 1, false⟩], none⟩]).nrows,
      ∀ j2 ∈ List.range (New [⟨"id", SType.int, [⟨EVal.vi 1, false⟩], none⟩]).nrows,
      ((([0] : List Nat).zip ([0] : List Nat)).all (fun p =>
        elemEq (colElem (New [⟨"id", SType.int, [⟨EVal.vi 1, false⟩], none⟩]).columns p.2 j1)
          (colElem (New [⟨"id", SType.int, [⟨EVal.vi 1, false⟩], none⟩]).columns p.2 j2)) = true) →
      j1 = j2) ∧
    (GotaDataFrame.LeftJoin (New [⟨"id", SType.int, [⟨EVal.vi 1, false⟩], none⟩])
        (New [⟨"id", SType.int, [⟨EVal.vi 1, false⟩, ⟨EVal.vi 1, false⟩], none⟩])
        ["id"]).NRow = 2 ∧
    (New [⟨"id", SType.int, [⟨EVal.vi 1, false⟩], none⟩]).NRow = 1 := by
  refine ⟨by decide, by decide, by decide⟩

/-- C7 (amended): for all frames A and B and every non-empty key list that
resolves on both sides, whenever **B** has no duplicate rows per key (no two
right rows agree, element-wise `Eq`, on every key column), LeftJoin(A,B,keys)
has exactly A.NRow() rows — each left row then contributes exactly one output
row. -/
theorem c7_leftjoin_nrow_amended (df b : GotaDataFrame) (keys : List String)
    (iKA iKB : List Nat)
    (hkeys : keys ≠ [])
    (hres : resolveKeys df b keys = Except.ok (iKA, iKB))
    (hB : ∀ j1 ∈ List.range b.nrows, ∀ j2 ∈ List.range b.nrows,
      ((iKA.zip iKB).all (fun p =>
        elemEq (colElem b.columns p.2 j1) (colElem b.columns p.2 j2)) = true) → j1 = j2) :
    (df.LeftJoin b keys).NRow = df.NRow := by
  have hkeys2 : keys.isEmpty = false := List.isEmpty_eq_false.mpr hkeys
  have hiKA : iKA = (keys.map df.ColIndex).map Int.toNat := by
    simp only [resolveKeys] at hres
    split at hres
    · exact absurd hres (by simp)
    · have h1 : ((keys.map df.ColIndex).map Int.toNat,
          (keys.map b.ColIndex).map Int.toNat) = (iKA, iKB) := by
        injection hres
      exact (Prod.ext_iff.mp h1).1.symm
  have hiKAne : iKA ≠ [] := by
    rw [hiKA]
    simpa using hkeys
  rw [leftJoin_ok df b keys iKA iKB hkeys2 hres]
  have hhm := joinHeader_mem df b iKA (notKeyIdxs df.ncols iKA) (notKeyIdxs b.ncols iKB)
  have hfc := fillCols_spec
    (joinHeader df b iKA (notKeyIdxs df.ncols iKA) (notKeyIdxs b.ncols iKB))
    ((List.range df.nrows).flatMap
      (leftJoinChunk df b iKA iKB (notKeyIdxs df.ncols iKA) (notKeyIdxs b.ncols iKB))) hhm
  have hheadpos :
      0 < (joinHeader df b iKA (notKeyIdxs df.ncols iKA) (notKeyIdxs b.ncols iKB)).length := by
    have : 0 < iKA.length := List.length_pos.mpr hiKAne
    simp only [joinHeader, List.length_append, List.length_map]
    omega
  have hfcne : fillCols (joinHeader df b iKA (notKeyIdxs df.ncols iKA) (notKeyIdxs b.ncols iKB))
      ((List.range df.nrows).flatMap
        (leftJoinChunk df b iKA iKB (notKeyIdxs df.ncols iKA) (notKeyIdxs b.ncols iKB))) ≠ [] := by
    intro hc
    have hlen := hfc.1
    rw [hc] at hlen
    simp only [List.length_nil] at hlen
    omega
  have hnew := New_uniform _ _ hfcne hfc.2
  show (New _).nrows = df.nrows
  rw [hnew.1]
  rw [List.length_flatMap]
  have hone : ∀ x ∈ List.range df.nrows,
      (List.length ∘ leftJoinChunk df b iKA iKB (notKeyIdxs df.ncols iKA)
        (notKeyIdxs b.ncols iKB)) x = 1 := by
    intro i _
    have hle : (matchesFor df b iKA iKB i).length ≤ 1 := by
      apply length_le_one_of_unique ?_ ((List.nodup_range b.nrows).filter _)
      intro x hx y hy
      have hx' := List.mem_filter.mp hx
      have hy' := List.mem_filter.mp hy
      apply hB x hx'.1 y hy'.1
      rw [List.all_eq_true]
      intro p hp
      have hx2 : ∀ a c, (a, c) ∈ iKA.zip iKB →
          elemEq (colElem df.columns a i) (colElem b.columns c x) = true := by
        simpa [rowMatch] using hx'.2
      have hy2 : ∀ a c, (a, c) ∈ iKA.zip iKB →
          elemEq (colElem df.columns a i) (colElem b.columns c y) = true := by
        simpa [rowMatch] using hy'.2
      have hp2 : (p.1, p.2) ∈ iKA.zip iKB := by simpa using hp
      show elemEq (colElem b.columns p.2 x) (colElem b.columns p.2 y) = true
      exact elemEq_trans (hx2 p.1 p.2 hp2) (hy2 p.1 p.2 hp2)
    by_cases hms : (matchesFor df b iKA iKB i).isEmpty
    · simp [leftJoinChunk, hms]
    · have hpos : 0 < (matchesFor df b iKA iKB i).length :=
        List.length_pos.mpr (by simpa [List.isEmpty_iff] using hms)
      simp only [Function.comp_apply, leftJoinChunk, hms, Bool.false_eq_true, if_false,
        List.length_map]
      omega
  rw [sum_map_ones _ _ hone, List.length_range]

/-- C7 (witness): the amended theorem applied to A = id:[1,2], B = id:[2,3]
(B duplicate-free per key): the left join has exactly 2 = A.NRow() rows. -/
theorem c7_leftjoin_nrow_amended_witness :
    (["id"] : List String) ≠ [] ∧
    resolveKeys (New [⟨"id", SType.int, [⟨EVal.vi 1, false⟩, ⟨EVal.vi 2, false⟩], none⟩])
      (New [⟨"id", SType.int, [⟨EVal.vi 2, false⟩, ⟨EVal.vi 3, false⟩], none⟩]) ["id"] =
      Except.ok ([0], [0]) ∧
    (GotaDataFrame.LeftJoin
      (New [⟨"id", SType.int, [⟨EVal.vi 1, false⟩, ⟨EVal.vi 2, false⟩], none⟩])
      (New [⟨"id", SType.int, [⟨EVal.vi 2, false⟩, ⟨EVal.vi 3, false⟩], none⟩])
      ["id"]).NRow =
      (New [⟨"id", SType.int, [⟨EVal.vi 1, false⟩, ⟨EVal.vi 2, false⟩], none⟩]).NRow := by
  refine ⟨by decide, by rfl, ?_⟩
  exact c7_leftjoin_nrow_amended
    (New [⟨"id", SType.int, [⟨EVal.vi 1, false⟩, ⟨EVal.vi 2, false⟩], none⟩])
    (New [⟨"id", SType.int, [⟨EVal.vi 2, false⟩, ⟨EVal.vi 3, false⟩], none⟩])
    ["id"] [0] [0] (by decide) (by rfl) (by decide)

/-- C3 (counterexample): the claim covers tables whose columns contain missing
elements; but Subset rebuilds elements from their raw values, clearing the
missing flags, so a table holding one missing element does not round trip
through a permutation and its inverse. -/
theorem c3_counterexample :
    (([0] : List Nat).Perm (List.range 1)) ∧
    invPerm [0] 1 = [0] ∧
    (GotaDataFrame.Subset
        (GotaDataFrame.Subset
          { columns := [⟨"a", SType.int, [⟨EVal.vi 7, true⟩], none⟩], ncols := 1, nrows := 1,
            Err := none } (.ints [0]))
        (.ints (invPerm [0] 1)) ≠
      { columns := [⟨"a", SType.int, [⟨EVal.vi 7, true⟩], none⟩], ncols := 1, nrows := 1,
        Err := none }) := by
  refine ⟨by decide, by decide, by decide⟩

/-- C3 (amended): for every well-formed error-free Table whose elements are all
non-missing, and every permutation p of its row positions,
T.Subset(p).Subset(inverse(p)) equals T.  (Subsetting clears missing flags, so
the round trip fails on tables with missing elements.) -/
theorem c3_subset_perm_amended (df : GotaDataFrame) (p : List Nat)
    (herr : df.Err = none)
    (hcols : df.columns ≠ [])
    (hncols : df.ncols = df.columns.length)
    (hrows : ∀ c ∈ df.columns, c.Err = none ∧ c.Len = df.nrows)
    (hnomiss : ∀ c ∈ df.columns, ∀ e ∈ c.elems, e.nan = false)
    (hp : p.Perm (List.range df.nrows)) :
    (df.Subset (.ints p)).Subset (.ints (invPerm p df.nrows)) = df := by
  have hplen : p.length = df.nrows := by rw [hp.length_eq, List.length_range]
  have hpmemrange : ∀ i, i < df.nrows → i ∈ p := fun i hi =>
    hp.mem_iff.mpr (List.mem_range.mpr hi)
  have hpinvlen : (invPerm p df.nrows).length = df.nrows := by simp [invPerm]
  have hpinvmem : ∀ i ∈ invPerm p df.nrows, i < df.nrows := by
    intro i hi
    unfold invPerm at hi
    rcases List.mem_map.mp hi with ⟨x, hx, rfl⟩
    have hxmem : x ∈ p := hpmemrange x (List.mem_range.mp hx)
    have := List.indexOf_lt_length.mpr hxmem
    omega
  have hcomp : ∀ j, j < df.nrows →
      p.getD ((invPerm p df.nrows).getD j 0) 0 = j := by
    intro j hj
    have hinvj : (invPerm p df.nrows).getD j 0 = p.indexOf j := by
      unfold invPerm
      rw [List.getD_eq_getElem _ _
        (show j < ((List.range df.nrows).map (fun i => p.indexOf i)).length by simpa using hj)]
      rw [List.getElem_map, List.getElem_range]
    rw [hinvj]
    have hjmem : j ∈ p := hpmemrange j hj
    have hlt := List.indexOf_lt_length.mpr hjmem
    rw [List.getD_eq_getElem _ _ hlt]
    exact List.getElem_indexOf hlt
  have h1 := df_subset_ints df p herr hcols (fun c hc => (hrows c hc).1)
  have hu2 : ∀ c ∈ df.columns.map (fun c => c.Subset (.ints p)), c.Err = none := by
    intro c1 hc1
    rcases List.mem_map.mp hc1 with ⟨c, hcmem, rfl⟩
    rw [subset_ints_spec c p (hrows c hcmem).1]
  rw [h1]
  rw [df_subset_ints _ (invPerm p df.nrows) rfl (by simpa using hcols) (by simpa using hu2)]
  have hcolseq : (df.columns.map (fun c => c.Subset (.ints p))).map
      (fun c => c.Subset (.ints (invPerm p df.nrows))) = df.columns := by
    rw [List.map_map]
    have hcc : ∀ c ∈ df.columns,
        ((fun c => c.Subset (.ints (invPerm p df.nrows))) ∘
          (fun c => c.Subset (.ints p))) c = c := by
      intro c hcmem
      exact series1_subset_perm c df.nrows p (invPerm p df.nrows) (hrows c hcmem).1
        (hrows c hcmem).2 (hnomiss c hcmem) hplen hpinvlen hpinvmem hcomp
    rw [List.map_congr_left hcc]
    exact List.map_id _
  apply GotaDataFrame.ext1
  · exact hcolseq
  · simpa using hncols.symm
  · exact hpinvlen
  · exact herr.symm

/-- C3 (witness): the amended theorem at a concrete two-row missing-free table
with the swap permutation. -/
theorem c3_subset_perm_amended_witness :
    (([1, 0] : List Nat)).Perm (List.range 2) ∧
    GotaDataFrame.Subset
      (GotaDataFrame.Subset
        { columns := [⟨"a", SType.int, [⟨EVal.vi 1, false⟩, ⟨EVal.vi 2, false⟩], none⟩],
          ncols := 1, nrows := 2, Err := none } (.ints [1, 0]))
      (.ints (invPerm [1, 0] 2)) =
    { columns := [⟨"a", SType.int, [⟨EVal.vi 1, false⟩, ⟨EVal.vi 2, false⟩], none⟩],
      ncols := 1, nrows := 2, Err := none } := by
  refine ⟨by decide, ?_⟩
  exact c3_subset_perm_amended
    { columns := [⟨"a", SType.int, [⟨EVal.vi 1, false⟩, ⟨EVal.vi 2, false⟩], none⟩],
      ncols := 1, nrows := 2, Err := none } [1, 0] rfl (by decide) rfl (by decide) (by decide)
    (by decide)


/-- C9 (counterexample): Mutate does not copy the ingested column.  A concrete
run in the heap model: mutating frame \x7ba:[1]\x7d with the external column
b:[5] succeeds, and a subsequent in-place Set of 99 into the caller's column b
changes the observable contents of the returned frame. -/
theorem c9_counterexample :
    ((MutateH ⟨[[⟨EVal.vi 1, false⟩], [⟨EVal.vi 5, false⟩]]⟩
        (⟨[⟨"a", SType.int, 0, none⟩], 1, 1, none⟩ : DFRef)
        ⟨"b", SType.int, 1, none⟩).2.Err = none) ∧
    observeH
        (seriesSetH
          (MutateH ⟨[[⟨EVal.vi 1, false⟩], [⟨EVal.vi 5, false⟩]]⟩
            (⟨[⟨"a", SType.int, 0, none⟩], 1, 1, none⟩ : DFRef)
            ⟨"b", SType.int, 1, none⟩).1
          ⟨"b", SType.int, 1, none⟩ 0 (EVal.vi 99))
        (MutateH ⟨[[⟨EVal.vi 1, false⟩], [⟨EVal.vi 5, false⟩]]⟩
          (⟨[⟨"a", SType.int, 0, none⟩], 1, 1, none⟩ : DFRef)
          ⟨"b", SType.int, 1, none⟩).2 ≠
      observeH
        (MutateH ⟨[[⟨EVal.vi 1, false⟩], [⟨EVal.vi 5, false⟩]]⟩
          (⟨[⟨"a", SType.int, 0, none⟩], 1, 1, none⟩ : DFRef)
          ⟨"b", SType.int, 1, none⟩).1
        (MutateH ⟨[[⟨EVal.vi 1, false⟩], [⟨EVal.vi 5, false⟩]]⟩
          (⟨[⟨"a", SType.int, 0, none⟩], 1, 1, none⟩ : DFRef)
          ⟨"b", SType.int, 1, none⟩).2 := by
  refine ⟨by decide, by decide⟩

/-- C9 (amended): Mutate copies the pre-existing columns (through Copy/New) but
ingests the argument column without copying: whenever it succeeds on an
error-free frame, the returned Table contains a column sharing the caller's
storage pointer, so subsequent in-place mutation of the argument column is
visible in the returned Table. -/
theorem c9_mutate_aliases_amended (h : Heap) (df : DFRef) (s : SRef)
    (herr : df.Err = none) (hlen : s.LenH h = df.nrows)
    (hok : (MutateH h df s).2.Err = none) :
    ∃ c ∈ (MutateH h df s).2.columns, c.ptr = s.ptr := by
  unfold MutateH at hok ⊢
  rw [herr] at hok ⊢
  rw [if_neg (by simp [hlen])] at hok ⊢
  have hcopy : CopyH h df = NewH h df.columns := by
    unfold CopyH
    rw [herr]
  rw [hcopy] at hok ⊢
  cases hidx : (df.columns.map (·.Name)).findIdx? (fun c => c == s.Name) with
  | some idx =>
      simp only [hidx] at hok ⊢
      cases hchk : checkColumnsDimensionsH (NewH h df.columns).1
          ((NewH h df.columns).2.columns.set idx s) with
      | error e =>
          simp only [hchk] at hok
          exact absurd hok (by simp [errDFH])
      | ok p =>
          simp only [hchk] at hok ⊢
          have hidxlt : idx < df.columns.length := by
            have := (List.findIdx?_eq_some_iff_findIdx_eq.mp hidx).1
            simpa using this
          rcases NewH_columns_shape h df.columns with hnil | hlenc
          · rw [hnil] at hchk
            exact absurd hchk (by simp [checkColumnsDimensionsH])
          · have hidx2 : idx < (NewH h df.columns).2.columns.length := by omega
            obtain ⟨c, hcmem, hcp⟩ := setNamesH_ptr_exists
              ((NewH h df.columns).2.columns.set idx s)
              (fixColnames (((NewH h df.columns).2.columns.set idx s).map (·.Name))) idx
              (by simpa using hidx2) (by simp [fixColnames_length])
            refine ⟨c, hcmem, ?_⟩
            rw [hcp, List.get_eq_getElem, List.getElem_set_self]
  | none =>
      simp only [hidx] at hok ⊢
      cases hchk : checkColumnsDimensionsH (NewH h df.columns).1
          ((NewH h df.columns).2.columns ++ [s]) with
      | error e =>
          simp only [hchk] at hok
          exact absurd hok (by simp [errDFH])
      | ok p =>
          simp only [hchk] at hok ⊢
          obtain ⟨c, hcmem, hcp⟩ := setNamesH_ptr_exists
            ((NewH h df.columns).2.columns ++ [s])
            (fixColnames (((NewH h df.columns).2.columns ++ [s]).map (·.Name)))
            (NewH h df.columns).2.columns.length
            (by simp) (by simp [fixColnames_length])
          refine ⟨c, hcmem, ?_⟩
          rw [hcp, List.get_eq_getElem, List.getElem_concat_length _ _ _ rfl]

/-- C9 (witness): the amended theorem on the concrete frame and column of the
counterexample run. -/
theorem c9_mutate_aliases_amended_witness :
    (⟨[⟨"a", SType.int, 0, none⟩], 1, 1, none⟩ : DFRef).Err = none ∧
    SRef.LenH ⟨[[⟨EVal.vi 1, false⟩], [⟨EVal.vi 5, false⟩]]⟩ ⟨"b", SType.int, 1, none⟩ =
      (⟨[⟨"a", SType.int, 0, none⟩], 1, 1, none⟩ : DFRef).nrows ∧
    ∃ c ∈ (MutateH ⟨[[⟨EVal.vi 1, false⟩], [⟨EVal.vi 5, false⟩]]⟩
        (⟨[⟨"a", SType.int, 0, none⟩], 1, 1, none⟩ : DFRef)
        ⟨"b", SType.int, 1, none⟩).2.columns,
      c.ptr = (⟨"b", SType.int, 1, none⟩ : SRef).ptr := by
  refine ⟨rfl, rfl, ?_⟩
  exact c9_mutate_aliases_amended ⟨[[⟨EVal.vi 1, false⟩], [⟨EVal.vi 5, false⟩]]⟩
    (⟨[⟨"a", SType.int, 0, none⟩], 1, 1, none⟩ : DFRef)
    ⟨"b", SType.int, 1, none⟩ rfl rfl (by decide)


end Gota



